import Mathlib

/-!
MusicPlayerProject: the playback engine of `internal/playlist/playlist.go`

The engine keeps its tracks in a `container/list` doubly linked list and its
cursor as a pointer to one node of that list.  The embedding below keeps node
identity explicit: every list node carries the address it was allocated at, the
track list is the sequence of nodes in list order, and the cursor is the address
of a node (or `none` for the `nil` pointer).  Every public method runs under the
engine's mutex, so each one is a function from the state before the call to the
returned error and the state after it.
-/

namespace MusicPlayer

/-! ## Data model -/

/-- The error values declared at the top of `playlist.go`. -/
inductive Error where
  | ErrorEmptyTitleSong
  | ErrorNotValidDurationSong
  | ErrorEmptyPlaylist
  | ErrorPlayingPlaylist
  | ErrorNotPlayingPlaylist
  | ErrorPausedPlaylist
  | ErrorPlayingSong
  | ErrorNotFoundSong
  deriving DecidableEq

/-- The `Song` struct.  `Duration` is a `time.Duration`, a signed count of
nanoseconds; the engine only ever compares it with zero. -/
structure Song where
  Title : String
  Duration : Int
  deriving DecidableEq

/-- A node of the `container/list` list: `addr` is the identity of the node (the
value a `*list.Element` pointer compares by), `Value` the song it holds. -/
structure Element where
  addr : Nat
  Value : Song
  deriving DecidableEq

/-- The `playlist` struct.  `songs` is the linked list in list order,
`currentSong` the node the cursor points at.  `stopChan` identifies the stop
channel currently installed (closing it and making a new one moves to the next
identity), `loops` counts the `playback` goroutines started so far, and
`nextAddr` is the address the next allocated node receives. -/
structure playlist where
  songs : List Element
  currentSong : Option Nat
  isPlaying : Bool
  isPaused : Bool
  stopChan : Nat
  loops : Nat
  nextAddr : Nat
  deriving DecidableEq

/-! ## The `container/list` operations the engine uses -/

/-- The addresses of the nodes of a list, in list order. -/
def addrs (l : List Element) : List Nat := l.map (fun e => e.addr)

/-- The songs held by a list, in list order. -/
def tracks (l : List Element) : List Song := l.map (fun e => e.Value)

/-- `l.Front()`: the first node, `nil` for the empty list. -/
def Front (l : List Element) : Option Nat := (addrs l).head?

/-- `l.Back()`: the last node, `nil` for the empty list. -/
def Back (l : List Element) : Option Nat := (addrs l).getLast?

/-- `e.Next()` for the node at address `a`: the node after it, `nil` when it is
the last node or is not linked into the list. -/
def Element.Next (l : List Element) (a : Nat) : Option Nat :=
  (addrs l)[(addrs l).indexOf a + 1]?

/-- `e.Prev()` for the node at address `a`: the node before it, `nil` when it is
the first node or is not linked into the list. -/
def Element.Prev (l : List Element) (a : Nat) : Option Nat :=
  if 0 < (addrs l).indexOf a ∧ (addrs l).indexOf a < (addrs l).length then
    (addrs l)[(addrs l).indexOf a - 1]?
  else none

/-- `l.PushBack(v)` with the new node allocated at address `a`. -/
def PushBack (l : List Element) (a : Nat) (v : Song) : List Element := l ++ [⟨a, v⟩]

/-- `l.Remove(e)` for the node at address `a`: that node is unlinked. -/
def Remove (l : List Element) (a : Nat) : List Element :=
  l.eraseP (fun e => e.addr == a)

/-- The scan `for e := l.Front(); e != nil; e = e.Next()` that stops at the first
node whose song carries the title. -/
def findTitle (l : List Element) (title : String) : Option Element :=
  l.find? (fun e => e.Value.Title == title)

/-- The writes `song.Title = t; song.Duration = d` through the song pointer held
by the node at address `a`. -/
def writeSong (l : List Element) (a : Nat) (t : String) (d : Int) : List Element :=
  l.map (fun e => if e.addr = a then { e with Value := ⟨t, d⟩ } else e)

/-! ## The engine -/

/-- `NewPlaylist()`: empty list, nil cursor, both flags false. -/
def NewPlaylist : playlist :=
  { songs := [], currentSong := none, isPlaying := false, isPaused := false,
    stopChan := 0, loops := 0, nextAddr := 0 }

/-- `AddSong(title, duration)`, lines 55-69: the title check, then the duration
check, then `PushBack` of a newly allocated song. -/
def AddSong (p : playlist) (title : String) (duration : Int) : Option Error × playlist :=
  if title = "" then (some Error.ErrorEmptyTitleSong, p)
  else if duration ≤ 0 then (some Error.ErrorNotValidDurationSong, p)
  else
    (none, { p with songs := PushBack p.songs p.nextAddr ⟨title, duration⟩,
                    nextAddr := p.nextAddr + 1 })

/-- `Play()`, lines 71-103.  While playing, a paused engine is resumed (the
condition variable is signalled, which changes no field) and an engine that is
not paused is refused.  While not playing, a nil cursor is set to `Front()`, the
flags are set and one `playback` goroutine is started. -/
def Play (p : playlist) : Option Error × playlist :=
  if p.songs.length = 0 then (some Error.ErrorEmptyPlaylist, p)
  else if p.isPlaying then
    if !p.isPaused then (some Error.ErrorPlayingPlaylist, p)
    else (none, { p with isPaused := false })
  else
    (none, { p with currentSong := if p.currentSong = none then Front p.songs
                                   else p.currentSong,
                    isPlaying := true, isPaused := false, loops := p.loops + 1 })

/-- `Pause()`, lines 105-119. -/
def Pause (p : playlist) : Option Error × playlist :=
  if !p.isPlaying then (some Error.ErrorNotPlayingPlaylist, p)
  else if p.isPaused then (some Error.ErrorPausedPlaylist, p)
  else (none, { p with isPaused := true })

/-- The tail shared by `Next` and `Prev`: when playing and not paused the stop
channel is closed and replaced and a new `playback` goroutine is started. -/
def restartLoop (p : playlist) : playlist :=
  if p.isPlaying && !p.isPaused then
    { p with stopChan := p.stopChan + 1, loops := p.loops + 1 }
  else p

/-- `Next()`, lines 121-148: a nil cursor is refused; otherwise the cursor moves
to `currentSong.Next()`, or to `Front()` when that is nil. -/
def Next (p : playlist) : Option Error × playlist :=
  match p.currentSong with
  | none => (some Error.ErrorEmptyPlaylist, p)
  | some a =>
    let next := if Element.Next p.songs a = none then Front p.songs
                else Element.Next p.songs a
    (none, restartLoop { p with currentSong := next })

/-- `Prev()`, lines 150-176: a nil cursor is refused; otherwise the cursor moves
to `currentSong.Prev()`, or to `Back()` when that is nil. -/
def Prev (p : playlist) : Option Error × playlist :=
  match p.currentSong with
  | none => (some Error.ErrorEmptyPlaylist, p)
  | some a =>
    let prev := if Element.Prev p.songs a = none then Back p.songs
                else Element.Prev p.songs a
    (none, restartLoop { p with currentSong := prev })

/-- `DeleteSong(title)`, lines 178-198: the scan stops at the first node whose
title matches; that node is refused when it is the cursor's node and unlinked
otherwise. -/
def DeleteSong (p : playlist) (title : String) : Option Error × playlist :=
  if p.songs.length = 0 then (some Error.ErrorEmptyPlaylist, p)
  else
    match findTitle p.songs title with
    | some e =>
      if some e.addr = p.currentSong then (some Error.ErrorPlayingSong, p)
      else (none, { p with songs := Remove p.songs e.addr })
    | none => (some Error.ErrorNotFoundSong, p)

/-- `UpdateSong(oldTitle, newTitle, newDuration)`, lines 200-222: the scan stops
at the first node whose title matches and overwrites its song. -/
def UpdateSong (p : playlist) (oldTitle newTitle : String) (newDuration : Int) :
    Option Error × playlist :=
  if p.songs.length = 0 then (some Error.ErrorEmptyPlaylist, p)
  else if newTitle = "" then (some Error.ErrorEmptyTitleSong, p)
  else
    match findTitle p.songs oldTitle with
    | some e => (none, { p with songs := writeSong p.songs e.addr newTitle newDuration })
    | none => (some Error.ErrorNotFoundSong, p)

/-! ## Runs of the engine -/

/-- A call of one of the seven public methods, with its arguments. -/
inductive Op where
  | AddSong (title : String) (duration : Int)
  | DeleteSong (title : String)
  | UpdateSong (oldTitle newTitle : String) (newDuration : Int)
  | Play
  | Pause
  | Next
  | Prev
  deriving DecidableEq

/-- One call applied to a state. -/
def step (p : playlist) : Op → Option Error × playlist
  | Op.AddSong t d => AddSong p t d
  | Op.DeleteSong t => DeleteSong p t
  | Op.UpdateSong o n d => UpdateSong p o n d
  | Op.Play => Play p
  | Op.Pause => Pause p
  | Op.Next => Next p
  | Op.Prev => Prev p

/-- The state after a sequence of calls, errors ignored as a caller may. -/
def run (p : playlist) (ops : List Op) : playlist :=
  ops.foldl (fun q op => (step q op).2) p

/-- The states the engine can be in: those some sequence of calls produces from
`NewPlaylist()`.  An elapsed track duration makes `playback` call `Next`, so
timer-driven advances are `Op.Next` steps. -/
def Reachable (p : playlist) : Prop := ∃ ops : List Op, run NewPlaylist ops = p

/-- The node the cursor points at, when it is linked into the list. -/
def current (p : playlist) : Option Element :=
  match p.currentSong with
  | none => none
  | some a => p.songs.find? (fun e => e.addr == a)

/-- Node addresses are pairwise distinct and all below the allocation mark. -/
def HeapOk (p : playlist) : Prop :=
  (addrs p.songs).Nodup ∧ ∀ a ∈ addrs p.songs, a < p.nextAddr

/-- A set cursor points at a node linked into the list. -/
def CursorLive (p : playlist) : Prop :=
  ∀ a, p.currentSong = some a → a ∈ addrs p.songs

instance (p : playlist) : Decidable (HeapOk p) := by
  unfold HeapOk; infer_instance

instance (p : playlist) : Decidable (CursorLive p) := by
  unfold CursorLive
  cases h : p.currentSong with
  | none => exact isTrue (by intro a ha; cases ha)
  | some c =>
    by_cases hc : c ∈ addrs p.songs
    · exact isTrue (by intro a ha; cases ha; exact hc)
    · exact isFalse (fun hh => hc (hh c rfl))

/-- A sequence of `AddSong` calls: the error each call returned, in call order,
and the state after the last one. -/
def addSongs (p : playlist) : List (String × Int) → List (Option Error) × playlist
  | [] => ([], p)
  | (t, d) :: rest =>
    ((AddSong p t d).1 :: (addSongs (AddSong p t d).2 rest).1,
     (addSongs (AddSong p t d).2 rest).2)

/-! ## States used as concrete instances -/

/-- The state of `TestPlayAndNext` after its two `AddSong` calls and `Play`:
"Song 1" and "Song 2" of 150 s each, playing, cursor on "Song 1". -/
def twoSongsPlaying : playlist :=
  run NewPlaylist [Op.AddSong "Song 1" 150000000000, Op.AddSong "Song 2" 150000000000, Op.Play]

/-- The two songs of `TestPlayAndNext` added to a new playlist, `Play` not yet
called: stopped, cursor empty. -/
def twoSongsStopped : playlist :=
  run NewPlaylist [Op.AddSong "Song 1" 150000000000, Op.AddSong "Song 2" 150000000000]

/-- The two-song playlist after `Play` and `Pause`: paused, cursor on "Song 1". -/
def twoSongsPaused : playlist :=
  run NewPlaylist [Op.AddSong "Song 1" 150000000000, Op.AddSong "Song 2" 150000000000, Op.Play,
    Op.Pause]

/-- The songs of the calls that returned nil, in call order, given the calls of a
sequence of `AddSong` calls and the error each one returned. -/
def added : List (String × Int) → List (Option Error) → List Song
  | (t, d) :: calls, r :: results =>
    if r = none then ⟨t, d⟩ :: added calls results else added calls results
  | _, _ => []

/-- The calls of `TestAddSong`, in order: one good, three rejected, one good. -/
def testAddSongCalls : List (String × Int) :=
  [("Song 1", 3000000000), ("", 1000000000), ("Song 2", 0), ("Song 2", -5000000000),
    ("Song 2", 5000000000)]

/-- Two tracks with one title, "Song 1" twice, added to a new playlist, then
`Play` and `Next`: the cursor is on the second of them. -/
def sameTitleTwice : playlist :=
  run NewPlaylist [Op.AddSong "Song 1" 10000000000, Op.AddSong "Song 1" 10000000000, Op.Play,
    Op.Next]

/-- The state of `TestDeleteSong` before its second `DeleteSong`: one track
"Song 1" of 10 s added again after a first add and delete, then `Play`. -/
def oneSongPlaying : playlist :=
  run NewPlaylist [Op.AddSong "Song 1" 10000000000, Op.DeleteSong "Song 1",
    Op.AddSong "Song 1" 10000000000, Op.Play]

/-- Consecutive calls of `Next`, `n` of them with nothing in between: the error
each call returned, in call order, and the state after the last one. -/
def nexts (p : playlist) : Nat → List (Option Error) × playlist
  | 0 => ([], p)
  | n + 1 => ((Next p).1 :: (nexts (Next p).2 n).1, (nexts (Next p).2 n).2)

/-- The three tracks of `TestPlay`, 1 s each, after `Play`: cursor on "Song 1". -/
def threeSongsPlaying : playlist :=
  run NewPlaylist [Op.AddSong "Song 1" 1000000000, Op.AddSong "Song 2" 1000000000,
    Op.AddSong "Song 3" 1000000000, Op.Play]

/-- The flags and the cursor agree: paused only while playing, and the cursor is
set exactly while playing. -/
def PlayOk (p : playlist) : Prop :=
  (p.isPaused = true → p.isPlaying = true) ∧ (p.isPlaying = true ↔ p.currentSong ≠ none)

/-- One track "Song 1" of 3 s added to a new playlist and then updated, under
its own title, to a duration of zero. -/
def zeroDurationUpdate : playlist :=
  run NewPlaylist [Op.AddSong "Song 1" 3000000000, Op.UpdateSong "Song 1" "Song 1" 0]

/-! ## The scheduling loop

`playback` (lines 224-248) runs in goroutines of its own.  A goroutine of
`playback` is either at the head of its `for` loop, or blocked in its `select`
on a timer and on the stop channel it read there, or has returned.  The machine
below is the engine together with the `playback` goroutines started so far and
a clock; its events are the steps the goroutines and the callers take, each one
atomic as the engine's mutex makes it. -/

/-- Where one `playback` goroutine stands: at the head of the `for` loop; in the
`select`, waiting for the timer that fires at `deadline` and for the channel
`stopChan`; or returned. -/
inductive Loop where
  | top
  | waiting (stopChan : Nat) (deadline : Int)
  | done
  deriving DecidableEq

/-- The engine, its `playback` goroutines in the order they were started, and the
time in nanoseconds. -/
structure Machine where
  engine : playlist
  goroutines : List Loop
  now : Int
  deriving DecidableEq

/-- The goroutines after a call on the engine: every `go p.playback(&wg)` the call
executed adds one goroutine at the head of its loop. -/
def spawn (g : List Loop) (started : Nat) : List Loop :=
  g ++ List.replicate (started - g.length) Loop.top

/-- What can happen next: a caller calls a method; goroutine `i` runs from the
head of its loop into the `select`; the `select` of goroutine `i` takes the
timer case; the `select` of goroutine `i` takes the stop-channel case; time
passes. -/
inductive Event where
  | call (op : Op)
  | enter (i : Nat)
  | expire (i : Nat)
  | stop (i : Nat)
  | sleep (d : Int)
  deriving DecidableEq

/-- One event, `none` when it cannot happen in the state.
* `enter`: the goroutine blocks while paused, returns when not playing, and
  otherwise reads the current song and enters the `select` with
  `time.After(song.Duration)` and the stop channel installed at that moment.
* `expire`: possible once the deadline is reached, whether or not the stop
  channel has been closed by then (a `select` with both cases ready takes
  either); the goroutine calls `p.Next()` and, its `select` over, goes back to
  the head of its loop.
* `stop`: possible once the channel the goroutine waits on has been closed,
  that is, is no longer the installed one; the goroutine returns. -/
def fire (s : Machine) : Event → Option Machine
  | Event.call op =>
    some { s with engine := (step s.engine op).2,
                  goroutines := spawn s.goroutines (step s.engine op).2.loops }
  | Event.enter i =>
    match s.goroutines[i]? with
    | some Loop.top =>
      if s.engine.isPaused then none
      else if !s.engine.isPlaying then
        some { s with goroutines := s.goroutines.set i Loop.done }
      else
        match current s.engine with
        | some e =>
          some { s with goroutines :=
            s.goroutines.set i (Loop.waiting s.engine.stopChan (s.now + e.Value.Duration)) }
        | none => none
    | _ => none
  | Event.expire i =>
    match s.goroutines[i]? with
    | some (Loop.waiting _ t) =>
      if t ≤ s.now then
        some { s with engine := (Next s.engine).2,
                      goroutines := spawn (s.goroutines.set i Loop.top) (Next s.engine).2.loops }
      else none
    | _ => none
  | Event.stop i =>
    match s.goroutines[i]? with
    | some (Loop.waiting c _) =>
      if c ≠ s.engine.stopChan then some { s with goroutines := s.goroutines.set i Loop.done }
      else none
    | _ => none
  | Event.sleep d => if 0 ≤ d then some { s with now := s.now + d } else none

/-- A sequence of events from a state, `none` when one of them cannot happen. -/
def fireAll (s : Machine) : List Event → Option Machine
  | [] => some s
  | ev :: rest => (fire s ev).bind (fun s2 => fireAll s2 rest)

/-- The goroutines blocked in their `select` on the stop channel now installed. -/
def waitingNow (s : Machine) : List Loop :=
  s.goroutines.filter (fun g =>
    match g with
    | Loop.waiting c _ => c == s.engine.stopChan
    | _ => false)

/-- A new engine with no goroutine, at time zero. -/
def Machine.init : Machine := { engine := NewPlaylist, goroutines := [], now := 0 }

/-- The run of `TestPlay` up to the first elapsed second: three tracks of 1 s,
`Play`, the goroutine enters its `select`, one second passes, its timer case
runs `Next`, and the goroutines at the head of their loops enter the `select`. -/
def testPlayFirstSecond : List Event :=
  [Event.call (Op.AddSong "Song 1" 1000000000), Event.call (Op.AddSong "Song 2" 1000000000),
    Event.call (Op.AddSong "Song 3" 1000000000), Event.call Op.Play, Event.enter 0,
    Event.sleep 1000000000, Event.expire 0, Event.enter 0, Event.enter 1]

/-- The run of `TestPlay` continued for one more second, after which the timers
of both waiting goroutines have fired and both take their timer case. -/
def testPlaySecondSecond : List Event :=
  testPlayFirstSecond ++ [Event.sleep 1000000000, Event.expire 0, Event.expire 1]

/-! ## The controller

`playlistController` of `internal/usecase/playlist.go` holds a `SongDB`
repository and the engine.  The repository is an interface; it is taken here as
the state it keeps together with the methods `DeleteSong` calls on it.  A call
of the controller is a function from the controller before the call to the
returned error, the controller after it, and the calls it made on its two
collaborators, in the order it made them. -/

/-- The `data.Song` struct, by the fields the sources read and write (`ID`,
`Title`, `Duration`); it is declared in `internal/data`. -/
structure DataSong where
  ID : Int
  Title : String
  Duration : Int
  deriving DecidableEq

/-- The methods of the `SongDB` interface that `DeleteSong` calls, over the state
`σ` the repository keeps.  `Get` returns the pair (song, error) of the Go method,
`Delete` its error; both return the repository state after the call.  An error
of the repository is carried by its message. -/
structure SongDB (σ : Type) where
  Get : σ → String → (Option DataSong × Option String) × σ
  Delete : σ → String → Option String × σ

/-- The errors a method of the controller returns: an error of the engine or of
the repository passed on, or one of the errors declared in
`usecase/playlist.go`. -/
inductive ControllerError where
  | playlist (e : Error)
  | repository (msg : String)
  | ErrSongNotPlaying
  | ErrSongStillPlaying
  | ErrorSongExised
  | ErrorNotFoundSongOnBase
  | ErrorNilPlaylist
  deriving DecidableEq

/-- The `playlistController` struct: the repository, by its state, and the
engine. -/
structure playlistController (σ : Type) where
  db : σ
  playlist : MusicPlayer.playlist

/-- A call the controller makes on a collaborator: `c.db.Get(ctx, title)`,
`c.playlist.DeleteSong(title)`, `c.db.Delete(ctx, title)`. -/
inductive Call where
  | dbGet (title : String)
  | playlistDeleteSong (title : String)
  | dbDelete (title : String)
  deriving DecidableEq

/-- What a call of the controller leaves: the error returned, the controller
after the call, and the calls made on the collaborators, first call first. -/
structure Outcome (σ : Type) where
  err : Option ControllerError
  state : playlistController σ
  calls : List Call

/-- `playlistController.DeleteSong(ctx, title)`, lines 124-144: `Get` on the
repository, returning its error or `ErrorNotFoundSongOnBase` for a nil song;
then `DeleteSong(song.Title)` on the engine, returning its error; then `Delete`
on the repository, returning its error; then nil. -/
def playlistController.DeleteSong {σ : Type} (c : playlistController σ) (repo : SongDB σ)
    (title : String) : Outcome σ :=
  let got := repo.Get c.db title
  match got.1.2 with
  | some err =>
    { err := some (ControllerError.repository err), state := { c with db := got.2 },
      calls := [Call.dbGet title] }
  | none =>
    match got.1.1 with
    | none =>
      { err := some ControllerError.ErrorNotFoundSongOnBase, state := { c with db := got.2 },
        calls := [Call.dbGet title] }
    | some song =>
      let del := MusicPlayer.DeleteSong c.playlist song.Title
      match del.1 with
      | some e =>
        { err := some (ControllerError.playlist e),
          state := { db := got.2, playlist := del.2 },
          calls := [Call.dbGet title, Call.playlistDeleteSong song.Title] }
      | none =>
        let rem := repo.Delete got.2 title
        match rem.1 with
        | some err =>
          { err := some (ControllerError.repository err),
            state := { db := rem.2, playlist := del.2 },
            calls := [Call.dbGet title, Call.playlistDeleteSong song.Title,
              Call.dbDelete title] }
        | none =>
          { err := none, state := { db := rem.2, playlist := del.2 },
            calls := [Call.dbGet title, Call.playlistDeleteSong song.Title,
              Call.dbDelete title] }

/-- A row of the `songs` table of `db_song.go`: id, title, duration in seconds. -/
structure Row where
  id : Int
  title : String
  durationSeconds : Int
  deriving DecidableEq

/-- The repository of `db_song.go` over the rows of its `songs` table, with a
database that answers every statement: `Get` is the `SELECT ... WHERE title = $1`
read back into a `data.Song` (no row gives the nil song and the nil error),
`Delete` is the `DELETE ... WHERE title = $1` with its error when no row was
affected. -/
def tableDB : SongDB (List Row) where
  Get := fun rows title =>
    match rows.find? (fun r => r.title == title) with
    | some r => ((some ⟨r.id, r.title, r.durationSeconds * 1000000000⟩, none), rows)
    | none => ((none, none), rows)
  Delete := fun rows title =>
    if rows.any (fun r => r.title == title) then
      (none, rows.filter (fun r => r.title != title))
    else (some "No rows deleted, check the song ID", rows)

/-- The controller of `client/client.go` at its line 66: "Test Song 1" and
"Test Song 2" of three minutes each created, then `Play`. -/
def clientController : playlistController (List Row) :=
  { db := [⟨1, "Test Song 1", 180⟩, ⟨2, "Test Song 2", 180⟩],
    playlist := run NewPlaylist [Op.AddSong "Test Song 1" 180000000000,
      Op.AddSong "Test Song 2" 180000000000, Op.Play] }

/-! ## Lemmas on the list operations -/

theorem addrs_length (l : List Element) : (addrs l).length = l.length := by
  simp [addrs]

theorem addrs_getElem? (l : List Element) (i : Nat) :
    (addrs l)[i]? = l[i]?.map (fun e => e.addr) := by
  simp [addrs]

theorem indexOf_addr {l : List Element} (hnd : (addrs l).Nodup) (i : Nat)
    (h : i < l.length) : (addrs l).indexOf l[i].addr = i := by
  have h2 : i < (addrs l).length := by simpa [addrs] using h
  have h3 := List.indexOf_getElem hnd i h2
  simpa [addrs] using h3

theorem Element.Next_at {l : List Element} (hnd : (addrs l).Nodup) (i : Nat)
    (h : i < l.length) :
    Element.Next l l[i].addr = l[i + 1]?.map (fun e => e.addr) := by
  unfold Element.Next
  rw [indexOf_addr hnd i h, addrs_getElem?]

theorem Element.Prev_at {l : List Element} (hnd : (addrs l).Nodup) (i : Nat)
    (h : i < l.length) :
    Element.Prev l l[i].addr = if i = 0 then none else l[i - 1]?.map (fun e => e.addr) := by
  unfold Element.Prev
  rw [indexOf_addr hnd i h, addrs_getElem?, addrs_length]
  by_cases h0 : i = 0
  · simp [h0]
  · have hpos : 0 < i := Nat.pos_of_ne_zero h0
    simp [h0, hpos, h]

theorem find_addr {l : List Element} (hnd : (addrs l).Nodup) (i : Nat)
    (h : i < l.length) :
    l.find? (fun e => e.addr == l[i].addr) = some l[i] := by
  induction l generalizing i with
  | nil => simp at h
  | cons x xs ih =>
    cases i with
    | zero => simp
    | succ j =>
      have hj : j < xs.length := by simpa using h
      have hnd2 : x.addr ∉ addrs xs ∧ (addrs xs).Nodup := by
        simpa [addrs] using hnd
      have hne : x.addr ≠ xs[j].addr := by
        intro heq
        apply hnd2.1
        rw [heq]
        simp only [addrs, List.mem_map]
        exact ⟨xs[j], List.getElem_mem _, rfl⟩
      simp [List.find?_cons, hne, ih hnd2.2 j hj]

theorem Front_eq (l : List Element) : Front l = l[0]?.map (fun e => e.addr) := by
  simp [Front, List.head?_eq_getElem?, addrs]

theorem Back_eq (l : List Element) :
    Back l = l[l.length - 1]?.map (fun e => e.addr) := by
  simp [Back, List.getLast?_eq_getElem?, addrs]

theorem restartLoop_songs (p : playlist) : (restartLoop p).songs = p.songs := by
  unfold restartLoop; split <;> rfl

theorem restartLoop_currentSong (p : playlist) :
    (restartLoop p).currentSong = p.currentSong := by
  unfold restartLoop; split <;> rfl

theorem restartLoop_isPlaying (p : playlist) :
    (restartLoop p).isPlaying = p.isPlaying := by
  unfold restartLoop; split <;> rfl

theorem restartLoop_isPaused (p : playlist) :
    (restartLoop p).isPaused = p.isPaused := by
  unfold restartLoop; split <;> rfl

theorem restartLoop_nextAddr (p : playlist) :
    (restartLoop p).nextAddr = p.nextAddr := by
  unfold restartLoop; split <;> rfl

/-- What `Next` does to every field but the cursor, and the cursor it installs. -/
theorem Next_some (p : playlist) (a : Nat) (h : p.currentSong = some a) :
    (Next p).1 = none ∧ (Next p).2.songs = p.songs ∧
    (Next p).2.isPlaying = p.isPlaying ∧ (Next p).2.isPaused = p.isPaused ∧
    (Next p).2.nextAddr = p.nextAddr ∧
    (Next p).2.currentSong =
      if Element.Next p.songs a = none then Front p.songs else Element.Next p.songs a := by
  simp [Next, h, restartLoop_songs, restartLoop_currentSong, restartLoop_isPlaying,
    restartLoop_isPaused, restartLoop_nextAddr]

/-- What `Prev` does to every field but the cursor, and the cursor it installs. -/
theorem Prev_some (p : playlist) (a : Nat) (h : p.currentSong = some a) :
    (Prev p).1 = none ∧ (Prev p).2.songs = p.songs ∧
    (Prev p).2.isPlaying = p.isPlaying ∧ (Prev p).2.isPaused = p.isPaused ∧
    (Prev p).2.nextAddr = p.nextAddr ∧
    (Prev p).2.currentSong =
      if Element.Prev p.songs a = none then Back p.songs else Element.Prev p.songs a := by
  simp [Prev, h, restartLoop_songs, restartLoop_currentSong, restartLoop_isPlaying,
    restartLoop_isPaused, restartLoop_nextAddr]

/-- The cursor after `Next` from the node at position `i`. -/
theorem Next_cursor_at (p : playlist) (hnd : (addrs p.songs).Nodup) (i : Nat)
    (hi : i < p.songs.length) (hc : p.currentSong = some p.songs[i].addr) :
    (Next p).2.currentSong =
      if i + 1 < p.songs.length then p.songs[i + 1]?.map (fun e => e.addr)
      else p.songs[0]?.map (fun e => e.addr) := by
  rw [(Next_some p _ hc).2.2.2.2.2, Element.Next_at hnd i hi, Front_eq]
  by_cases h1 : i + 1 < p.songs.length
  · simp [h1]
  · simp [h1]

/-- The cursor after `Prev` from the node at position `i`. -/
theorem Prev_cursor_at (p : playlist) (hnd : (addrs p.songs).Nodup) (i : Nat)
    (hi : i < p.songs.length) (hc : p.currentSong = some p.songs[i].addr) :
    (Prev p).2.currentSong =
      if i = 0 then p.songs[p.songs.length - 1]?.map (fun e => e.addr)
      else p.songs[i - 1]?.map (fun e => e.addr) := by
  rw [(Prev_some p _ hc).2.2.2.2.2, Element.Prev_at hnd i hi, Back_eq]
  by_cases h0 : i = 0
  · simp [h0]
  · have h1 : i - 1 < p.songs.length := by omega
    simp [h0, h1]

/-! ## Next and Prev -/

/-- The node the cursor points at after a call that leaves the list alone and
puts the cursor on the node at position `j`. -/
theorem current_of_moved (p q : playlist) (hnd : (addrs p.songs).Nodup)
    (hs : q.songs = p.songs) (j : Nat) (hj : j < p.songs.length)
    (hc : q.currentSong = some p.songs[j].addr) : current q = some p.songs[j] := by
  simp only [current, hc, hs]
  exact find_addr hnd j hj

/-- Claim C1, `Next`.  With an empty cursor `Next` returns `ErrorEmptyPlaylist` and
changes nothing.  With a set cursor it returns nil and leaves the track list and
both flags as they were, and while stopped or paused it also leaves the stop
channel alone and starts no loop; when the cursor points at the node at position `i` of
the list (node addresses being pairwise distinct, as they are for pointers), the
cursor afterwards points at the node at position `i + 1`, or at the first node
when position `i` was the last one. -/
theorem C1_Next (p : playlist) :
    (p.currentSong = none → Next p = (some Error.ErrorEmptyPlaylist, p)) ∧
    (∀ a, p.currentSong = some a →
      (Next p).1 = none ∧ (Next p).2.songs = p.songs ∧
      (Next p).2.isPlaying = p.isPlaying ∧ (Next p).2.isPaused = p.isPaused ∧
      (p.isPlaying = false ∨ p.isPaused = true →
        (Next p).2.stopChan = p.stopChan ∧ (Next p).2.loops = p.loops)) ∧
    (∀ (i : Nat) (hi : i < p.songs.length), (addrs p.songs).Nodup →
      p.currentSong = some p.songs[i].addr →
      (∀ h1 : i + 1 < p.songs.length,
        (Next p).2.currentSong = some p.songs[i + 1].addr ∧
        current (Next p).2 = some p.songs[i + 1]) ∧
      (i + 1 = p.songs.length →
        (Next p).2.currentSong = some p.songs[0].addr ∧
        current (Next p).2 = some p.songs[0])) := by
  refine ⟨fun h => by simp [Next, h], fun a h => ?_, fun i hi hnd hc => ⟨fun h1 => ?_, fun h1 => ?_⟩⟩
  · refine ⟨(Next_some p a h).1, (Next_some p a h).2.1, (Next_some p a h).2.2.1,
      (Next_some p a h).2.2.2.1, fun hidle => ?_⟩
    rcases hidle with hidle | hidle <;> simp [Next, h, restartLoop, hidle]
  · have hcur : (Next p).2.currentSong = some p.songs[i + 1].addr := by
      rw [Next_cursor_at p hnd i hi hc]; simp [h1]
    exact ⟨hcur, current_of_moved p _ hnd (Next_some p _ hc).2.1 (i + 1) h1 hcur⟩
  · have h0 : 0 < p.songs.length := by omega
    have hcur : (Next p).2.currentSong = some p.songs[0].addr := by
      rw [Next_cursor_at p hnd i hi hc]; simp [h1, h0]
    exact ⟨hcur, current_of_moved p _ hnd (Next_some p _ hc).2.1 0 h0 hcur⟩

/-- Instance of C1 on the two-song playlist of `TestPlayAndNext`: from "Song 1"
`Next` moves to "Song 2". -/
theorem C1_Next_witness :
    (addrs twoSongsPlaying.songs).Nodup ∧ twoSongsPlaying.currentSong = some 0 ∧
    ((Next twoSongsPlaying).2.currentSong = some 1 ∧
      current (Next twoSongsPlaying).2 = some ⟨1, ⟨"Song 2", 150000000000⟩⟩) :=
  ⟨by decide, by decide,
    ((C1_Next twoSongsPlaying).2.2 0 (by decide) (by decide) (by decide)).1 (by decide)⟩

/-- Claim C2, `Prev`.  With an empty cursor `Prev` returns `ErrorEmptyPlaylist` and
changes nothing.  With a set cursor it returns nil and leaves the track list and
both flags as they were, and while stopped or paused it also leaves the stop
channel alone and starts no loop; when the cursor points at the node at position `i` of
the list (node addresses being pairwise distinct), the cursor afterwards points
at the node at position `i - 1`, or at the last node when `i` was the first
position. -/
theorem C2_Prev (p : playlist) :
    (p.currentSong = none → Prev p = (some Error.ErrorEmptyPlaylist, p)) ∧
    (∀ a, p.currentSong = some a →
      (Prev p).1 = none ∧ (Prev p).2.songs = p.songs ∧
      (Prev p).2.isPlaying = p.isPlaying ∧ (Prev p).2.isPaused = p.isPaused ∧
      (p.isPlaying = false ∨ p.isPaused = true →
        (Prev p).2.stopChan = p.stopChan ∧ (Prev p).2.loops = p.loops)) ∧
    (∀ (i : Nat) (hi : i < p.songs.length), (addrs p.songs).Nodup →
      p.currentSong = some p.songs[i].addr →
      (∀ h1 : 0 < i,
        (Prev p).2.currentSong = some p.songs[i - 1].addr ∧
        current (Prev p).2 = some p.songs[i - 1]) ∧
      (i = 0 →
        (Prev p).2.currentSong = some p.songs[p.songs.length - 1].addr ∧
        current (Prev p).2 = some p.songs[p.songs.length - 1])) := by
  refine ⟨fun h => by simp [Prev, h], fun a h => ?_, fun i hi hnd hc => ⟨fun h1 => ?_, fun h1 => ?_⟩⟩
  · refine ⟨(Prev_some p a h).1, (Prev_some p a h).2.1, (Prev_some p a h).2.2.1,
      (Prev_some p a h).2.2.2.1, fun hidle => ?_⟩
    rcases hidle with hidle | hidle <;> simp [Prev, h, restartLoop, hidle]
  · have h2 : i - 1 < p.songs.length := by omega
    have h3 : i ≠ 0 := by omega
    have hcur : (Prev p).2.currentSong = some p.songs[i - 1].addr := by
      rw [Prev_cursor_at p hnd i hi hc]; simp [h3, h2]
    exact ⟨hcur, current_of_moved p _ hnd (Prev_some p _ hc).2.1 (i - 1) h2 hcur⟩
  · have h2 : p.songs.length - 1 < p.songs.length := by omega
    have hcur : (Prev p).2.currentSong = some p.songs[p.songs.length - 1].addr := by
      rw [Prev_cursor_at p hnd i hi hc]; simp [h1, h2]
    exact ⟨hcur, current_of_moved p _ hnd (Prev_some p _ hc).2.1 _ h2 hcur⟩

/-- Instance of C2 on the two-song playlist of `TestPlayAndPrev`: from "Song 1",
the first track, `Prev` wraps to "Song 2", the last one. -/
theorem C2_Prev_witness :
    (addrs twoSongsPlaying.songs).Nodup ∧ twoSongsPlaying.currentSong = some 0 ∧
    ((Prev twoSongsPlaying).2.currentSong = some 1 ∧
      current (Prev twoSongsPlaying).2 = some ⟨1, ⟨"Song 2", 150000000000⟩⟩) :=
  ⟨by decide, by decide,
    ((C2_Prev twoSongsPlaying).2.2 0 (by decide) (by decide) (by decide)).2 (by decide)⟩

/-! ## Play and Pause -/

/-- Claim C3, `Play` over the playback state.  On an empty track list `Play` returns
`ErrorEmptyPlaylist`; on a non-empty list while playing and not paused it returns
`ErrorPlayingPlaylist`; on a non-empty list while paused it returns nil, the
flags become playing and not paused, and the cursor and the track list are as
before.  In the two failing cases the state is untouched. -/
theorem C3_Play (p : playlist) :
    (p.songs = [] → Play p = (some Error.ErrorEmptyPlaylist, p)) ∧
    (p.songs ≠ [] → p.isPlaying = true → p.isPaused = false →
      Play p = (some Error.ErrorPlayingPlaylist, p)) ∧
    (p.songs ≠ [] → p.isPlaying = true → p.isPaused = true →
      (Play p).1 = none ∧
      (Play p).2.isPlaying = true ∧ (Play p).2.isPaused = false ∧
      (Play p).2.currentSong = p.currentSong ∧ (Play p).2.songs = p.songs) := by
  refine ⟨fun h => by simp [Play, h], fun h hp hq => ?_, fun h hp hq => ?_⟩
  · have hl : p.songs.length ≠ 0 := by simpa using h
    simp [Play, hl, hp, hq]
  · have hl : p.songs.length ≠ 0 := by simpa using h
    simp [Play, hl, hp, hq]

/-- Instance of C3: `Play` on the paused two-song playlist resumes it. -/
theorem C3_Play_witness :
    twoSongsPaused.songs ≠ [] ∧ twoSongsPaused.isPlaying = true ∧
    twoSongsPaused.isPaused = true ∧
    ((Play twoSongsPaused).1 = none ∧
      (Play twoSongsPaused).2.isPlaying = true ∧ (Play twoSongsPaused).2.isPaused = false ∧
      (Play twoSongsPaused).2.currentSong = twoSongsPaused.currentSong ∧
      (Play twoSongsPaused).2.songs = twoSongsPaused.songs) :=
  ⟨by decide, by decide, by decide,
    (C3_Play twoSongsPaused).2.2 (by decide) (by decide) (by decide)⟩

/-- Claim C4, `Play` from Stopped.  On a track list with first node `e`, while not
playing, `Play` returns nil and the flags become playing and not paused; a
cursor that was empty now points at `e`, the first track, a cursor that was set
stays where it was, and the track list is as before. -/
theorem C4_Play_stopped (p : playlist) (e : Element) (rest : List Element)
    (hs : p.songs = e :: rest) (hstop : p.isPlaying = false) :
    (Play p).1 = none ∧
    (Play p).2.isPlaying = true ∧ (Play p).2.isPaused = false ∧
    (p.currentSong = none →
      (Play p).2.currentSong = some e.addr ∧ current (Play p).2 = some e) ∧
    (p.currentSong ≠ none → (Play p).2.currentSong = p.currentSong) ∧
    (Play p).2.songs = p.songs := by
  refine ⟨by simp [Play, hs, hstop], by simp [Play, hs, hstop], by simp [Play, hs, hstop],
    fun hc => ?_, fun hc => by simp [Play, hs, hstop, hc], by simp [Play, hs, hstop]⟩
  have h1 : (Play p).2.currentSong = some e.addr := by
    simp [Play, hs, hstop, hc, Front, addrs]
  have h2 : (Play p).2.songs = e :: rest := by simp [Play, hs, hstop]
  refine ⟨h1, ?_⟩
  simp [current, h1, h2]

/-- Instance of C4: the first `Play` of `TestPlayAndNext` puts the cursor on
"Song 1". -/
theorem C4_Play_stopped_witness :
    twoSongsStopped.isPlaying = false ∧ twoSongsStopped.currentSong = none ∧
    ((Play twoSongsStopped).2.currentSong = some 0 ∧
      current (Play twoSongsStopped).2 = some ⟨0, ⟨"Song 1", 150000000000⟩⟩) :=
  ⟨by decide, by decide,
    (C4_Play_stopped twoSongsStopped ⟨0, ⟨"Song 1", 150000000000⟩⟩
      [⟨1, ⟨"Song 2", 150000000000⟩⟩] (by decide) (by decide)).2.2.2.1 (by decide)⟩

/-- Claim C5, `Pause`.  While not playing `Pause` returns `ErrorNotPlayingPlaylist`;
while playing and paused it returns `ErrorPausedPlaylist`; while playing and not
paused it returns nil and the flags become playing and paused.  The cursor and
the track list are as before in all three cases, and in the two failing cases
the whole state is. -/
theorem C5_Pause (p : playlist) :
    (p.isPlaying = false → Pause p = (some Error.ErrorNotPlayingPlaylist, p)) ∧
    (p.isPlaying = true → p.isPaused = true →
      Pause p = (some Error.ErrorPausedPlaylist, p)) ∧
    (p.isPlaying = true → p.isPaused = false →
      (Pause p).1 = none ∧
      (Pause p).2.isPlaying = true ∧ (Pause p).2.isPaused = true) ∧
    (Pause p).2.currentSong = p.currentSong ∧ (Pause p).2.songs = p.songs := by
  refine ⟨fun hp => by simp [Pause, hp], fun hp hq => by simp [Pause, hp, hq],
    fun hp hq => by simp [Pause, hp, hq], ?_, ?_⟩
  · unfold Pause; split_ifs <;> rfl
  · unfold Pause; split_ifs <;> rfl

/-- Instance of C5: `Pause` on the playing two-song playlist pauses it. -/
theorem C5_Pause_witness :
    twoSongsPlaying.isPlaying = true ∧ twoSongsPlaying.isPaused = false ∧
    ((Pause twoSongsPlaying).1 = none ∧
      (Pause twoSongsPlaying).2.isPlaying = true ∧ (Pause twoSongsPlaying).2.isPaused = true) :=
  ⟨by decide, by decide, (C5_Pause twoSongsPlaying).2.2.1 (by decide) (by decide)⟩

/-! ## AddSong -/

theorem AddSong_ok (p : playlist) (title : String) (duration : Int)
    (ht : title ≠ "") (hd : 0 < duration) :
    AddSong p title duration =
      (none, { p with songs := p.songs ++ [⟨p.nextAddr, ⟨title, duration⟩⟩],
                      nextAddr := p.nextAddr + 1 }) := by
  have hd2 : ¬ duration ≤ 0 := by omega
  simp [AddSong, ht, hd2, PushBack]

/-- A call of `AddSong` returns nil exactly when it appends its song, and leaves
the track list alone otherwise. -/
theorem AddSong_tracks (p : playlist) (title : String) (duration : Int) :
    tracks (AddSong p title duration).2.songs =
      tracks p.songs ++
        (if (AddSong p title duration).1 = none then [⟨title, duration⟩] else []) := by
  unfold AddSong
  split_ifs <;> simp_all [tracks, PushBack]

theorem addSongs_tracks (p : playlist) (calls : List (String × Int)) :
    tracks (addSongs p calls).2.songs =
      tracks p.songs ++ added calls (addSongs p calls).1 := by
  induction calls generalizing p with
  | nil => simp [addSongs, added]
  | cons c calls ih =>
    obtain ⟨t, d⟩ := c
    simp only [addSongs, added]
    rw [ih, AddSong_tracks]
    split_ifs <;> simp

theorem added_length (calls : List (String × Int)) (results : List (Option Error))
    (h : results.length = calls.length) :
    (added calls results).length = results.count none := by
  induction calls generalizing results with
  | nil =>
    have hr : results = [] := by simpa using h
    simp [hr, added]
  | cons c calls ih =>
    obtain ⟨t, d⟩ := c
    cases results with
    | nil => simp at h
    | cons r results =>
      have h2 : results.length = calls.length := by simpa using h
      cases r with
      | none => simp [added, ih results h2]
      | some e => simp [added, ih results h2]

theorem addSongs_results_length (p : playlist) (calls : List (String × Int)) :
    (addSongs p calls).1.length = calls.length := by
  induction calls generalizing p with
  | nil => simp [addSongs]
  | cons c calls ih =>
    obtain ⟨t, d⟩ := c
    simp [addSongs, ih]

/-- Claim C6, `AddSong` success.  For a non-empty title and a duration above zero
`AddSong` returns nil, the track list afterwards is the old list followed by one
new node holding the track (title, duration), and the cursor and both flags are
as before.  For every sequence of `AddSong` calls on a new playlist, the tracks
of the list are the songs of the calls that returned nil, in call order, and the
length of the list is the number of calls that returned nil. -/
theorem C6_AddSong :
    (∀ (p : playlist) (title : String) (duration : Int), title ≠ "" → 0 < duration →
      (AddSong p title duration).1 = none ∧
      (AddSong p title duration).2.songs = p.songs ++ [⟨p.nextAddr, ⟨title, duration⟩⟩] ∧
      tracks (AddSong p title duration).2.songs = tracks p.songs ++ [⟨title, duration⟩] ∧
      (AddSong p title duration).2.currentSong = p.currentSong ∧
      (AddSong p title duration).2.isPlaying = p.isPlaying ∧
      (AddSong p title duration).2.isPaused = p.isPaused) ∧
    (∀ calls : List (String × Int),
      tracks (addSongs NewPlaylist calls).2.songs = added calls (addSongs NewPlaylist calls).1 ∧
      (addSongs NewPlaylist calls).2.songs.length =
        (addSongs NewPlaylist calls).1.count none) := by
  refine ⟨fun p title duration ht hd => ?_, fun calls => ?_⟩
  · rw [AddSong_ok p title duration ht hd]
    simp [tracks]
  · have h1 : tracks (addSongs NewPlaylist calls).2.songs =
        added calls (addSongs NewPlaylist calls).1 := by
      rw [addSongs_tracks]; simp [NewPlaylist, tracks]
    refine ⟨h1, ?_⟩
    have h2 : (addSongs NewPlaylist calls).2.songs.length =
        (tracks (addSongs NewPlaylist calls).2.songs).length := by simp [tracks]
    rw [h2, h1, added_length _ _ (addSongs_results_length _ _)]

/-- Instance of C6: the first call of `TestAddSong`, "Song 1" of 3 s on a new
playlist, and the whole run of `TestAddSong`, five calls of which the first and
the last return nil. -/
theorem C6_AddSong_witness :
    "Song 1" ≠ "" ∧ (0 : Int) < 3000000000 ∧
    ((AddSong NewPlaylist "Song 1" 3000000000).1 = none ∧
      (AddSong NewPlaylist "Song 1" 3000000000).2.songs =
        NewPlaylist.songs ++ [⟨NewPlaylist.nextAddr, ⟨"Song 1", 3000000000⟩⟩] ∧
      tracks (AddSong NewPlaylist "Song 1" 3000000000).2.songs =
        tracks NewPlaylist.songs ++ [⟨"Song 1", 3000000000⟩] ∧
      (AddSong NewPlaylist "Song 1" 3000000000).2.currentSong = NewPlaylist.currentSong ∧
      (AddSong NewPlaylist "Song 1" 3000000000).2.isPlaying = NewPlaylist.isPlaying ∧
      (AddSong NewPlaylist "Song 1" 3000000000).2.isPaused = NewPlaylist.isPaused) ∧
    (tracks (addSongs NewPlaylist testAddSongCalls).2.songs =
        [⟨"Song 1", 3000000000⟩, ⟨"Song 2", 5000000000⟩] ∧
      (addSongs NewPlaylist testAddSongCalls).2.songs.length = 2) :=
  ⟨by decide, by decide, C6_AddSong.1 NewPlaylist "Song 1" 3000000000 (by decide) (by decide),
    C6_AddSong.2 testAddSongCalls⟩

/-- Claim C7, `AddSong` with an empty title.  Whatever the state and the duration,
`AddSong("", duration)` returns `ErrorEmptyTitleSong` and leaves the state, the
track list and its length in particular, as it was. -/
theorem C7_AddSong_empty_title (p : playlist) (duration : Int) :
    AddSong p "" duration = (some Error.ErrorEmptyTitleSong, p) ∧
    (AddSong p "" duration).2.songs = p.songs ∧
    (AddSong p "" duration).2.songs.length = p.songs.length := by
  simp [AddSong]

/-- Claim C8, as the code has it: for a non-empty title and a duration of zero or
less `AddSong` returns `ErrorNotValidDurationSong`; for every title, empty or
not, and a duration of zero or less the state, the track list and its length in
particular, is left as it was. -/
theorem C8_AddSong_bad_duration (p : playlist) (title : String) (duration : Int)
    (hd : duration ≤ 0) :
    (title ≠ "" → (AddSong p title duration).1 = some Error.ErrorNotValidDurationSong) ∧
    (AddSong p title duration).2 = p ∧
    (AddSong p title duration).2.songs.length = p.songs.length := by
  by_cases ht : title = ""
  · simp [AddSong, ht]
  · simp [AddSong, ht, hd]

/-- Instance of C8: the call `AddSong("Song 2", 0)` of `TestAddSong`. -/
theorem C8_AddSong_bad_duration_witness :
    (0 : Int) ≤ 0 ∧ "Song 2" ≠ "" ∧
    (AddSong (AddSong NewPlaylist "Song 1" 3000000000).2 "Song 2" 0).1 =
      some Error.ErrorNotValidDurationSong :=
  ⟨by decide, by decide,
    (C8_AddSong_bad_duration (AddSong NewPlaylist "Song 1" 3000000000).2 "Song 2" 0
      (by decide)).1 (by decide)⟩

/-- C8 as stated fails for the empty title: with a duration of zero `AddSong`
returns `ErrorEmptyTitleSong`, the title being checked first, and not
`ErrorNotValidDurationSong`. -/
theorem C8_counterexample :
    (0 : Int) ≤ 0 ∧
    (AddSong NewPlaylist "" 0).1 = some Error.ErrorEmptyTitleSong ∧
    (AddSong NewPlaylist "" 0).1 ≠ some Error.ErrorNotValidDurationSong := by
  decide

/-! ## What every reachable state satisfies -/

theorem mem_addrs {l : List Element} {a : Nat} :
    a ∈ addrs l ↔ ∃ e ∈ l, e.addr = a := by
  simp [addrs]

theorem Front_mem {l : List Element} {a : Nat} (h : Front l = some a) : a ∈ addrs l :=
  List.mem_of_mem_head? (by simpa [Front] using h)

theorem Back_mem {l : List Element} {a : Nat} (h : Back l = some a) : a ∈ addrs l :=
  List.mem_of_getLast?_eq_some (by simpa [Back] using h)

theorem Element.Next_mem {l : List Element} {a b : Nat} (h : Element.Next l a = some b) :
    b ∈ addrs l :=
  List.getElem?_mem h

theorem Element.Prev_mem {l : List Element} {a b : Nat} (h : Element.Prev l a = some b) :
    b ∈ addrs l := by
  unfold Element.Prev at h
  split_ifs at h
  exact List.getElem?_mem h

theorem addrs_writeSong (l : List Element) (a : Nat) (t : String) (d : Int) :
    addrs (writeSong l a t d) = addrs l := by
  simp only [addrs, writeSong, List.map_map]
  apply List.map_congr_left
  intro e _
  simp only [Function.comp]
  split_ifs <;> rfl

theorem addrs_Remove_sublist (l : List Element) (a : Nat) :
    (addrs (Remove l a)).Sublist (addrs l) :=
  (List.eraseP_sublist l).map _

theorem mem_addrs_Remove {l : List Element} {a b : Nat} (hb : b ∈ addrs l) (hne : b ≠ a) :
    b ∈ addrs (Remove l a) := by
  obtain ⟨e, he, hea⟩ := mem_addrs.1 hb
  have hp : ¬ ((fun x : Element => x.addr == a) e = true) := by
    simp [hea, hne]
  have hmem : e ∈ List.eraseP (fun x : Element => x.addr == a) l :=
    (List.mem_eraseP_of_neg (p := fun x : Element => x.addr == a) (a := e) hp).2 he
  exact mem_addrs.2 ⟨e, hmem, hea⟩

theorem step_HeapOk (p : playlist) (op : Op) (h : HeapOk p) : HeapOk (step p op).2 := by
  obtain ⟨hnd, hlt⟩ := h
  cases op with
  | AddSong t d =>
    simp only [step, AddSong]
    split_ifs
    · exact ⟨hnd, hlt⟩
    · exact ⟨hnd, hlt⟩
    · refine ⟨?_, ?_⟩
      · simp only [PushBack, addrs, List.map_append, List.map_cons, List.map_nil]
        rw [List.nodup_append]
        refine ⟨hnd, List.nodup_singleton _, ?_⟩
        intro a ha hb
        have h1 := hlt a ha
        have h2 : a = p.nextAddr := by simpa using hb
        omega
      · intro a ha
        simp only [PushBack, addrs, List.map_append, List.map_cons, List.map_nil,
          List.mem_append, List.mem_singleton] at ha
        rcases ha with ha | ha
        · have h1 := hlt a ha
          show a < p.nextAddr + 1
          omega
        · show a < p.nextAddr + 1
          omega
  | DeleteSong t =>
    simp only [step, DeleteSong]
    split_ifs
    · exact ⟨hnd, hlt⟩
    · split
      · split_ifs
        · exact ⟨hnd, hlt⟩
        · exact ⟨hnd.sublist (addrs_Remove_sublist _ _),
            fun a ha => hlt a ((addrs_Remove_sublist _ _).subset ha)⟩
      · exact ⟨hnd, hlt⟩
  | UpdateSong o n d =>
    simp only [step, UpdateSong]
    split_ifs
    · exact ⟨hnd, hlt⟩
    · exact ⟨hnd, hlt⟩
    · split
      · refine ⟨?_, ?_⟩
        · show (addrs (writeSong _ _ _ _)).Nodup
          rw [addrs_writeSong]; exact hnd
        · intro a ha
          have ha2 : a ∈ addrs (writeSong p.songs _ n d) := ha
          rw [addrs_writeSong] at ha2
          exact hlt a ha2
      · exact ⟨hnd, hlt⟩
  | Play =>
    simp only [step, Play]
    split_ifs <;> exact ⟨hnd, hlt⟩
  | Pause =>
    simp only [step, Pause]
    split_ifs <;> exact ⟨hnd, hlt⟩
  | Next =>
    simp only [step, Next]
    split
    · exact ⟨hnd, hlt⟩
    · exact ⟨by rw [restartLoop_songs]; exact hnd,
        by rw [restartLoop_songs, restartLoop_nextAddr]; exact hlt⟩
  | Prev =>
    simp only [step, Prev]
    split
    · exact ⟨hnd, hlt⟩
    · exact ⟨by rw [restartLoop_songs]; exact hnd,
        by rw [restartLoop_songs, restartLoop_nextAddr]; exact hlt⟩

theorem step_CursorLive (p : playlist) (op : Op) (h : CursorLive p) :
    CursorLive (step p op).2 := by
  cases op with
  | AddSong t d =>
    simp only [step, AddSong]
    split_ifs
    · exact h
    · exact h
    · intro a ha
      have h1 : a ∈ addrs p.songs := h a ha
      simp only [PushBack, addrs, List.map_append, List.mem_append]
      exact Or.inl h1
  | DeleteSong t =>
    simp only [step, DeleteSong]
    split_ifs
    · exact h
    · split
      · rename_i e _
        split_ifs with hcur
        · exact h
        · intro a ha
          have ha2 : p.currentSong = some a := ha
          refine mem_addrs_Remove (h a ha2) ?_
          intro heq
          exact hcur (by rw [ha2, heq])
      · exact h
  | UpdateSong o n d =>
    simp only [step, UpdateSong]
    split_ifs
    · exact h
    · exact h
    · split
      · intro a ha
        show a ∈ addrs (writeSong _ _ _ _)
        rw [addrs_writeSong]
        exact h a ha
      · exact h
  | Play =>
    simp only [step, Play]
    split_ifs with h1 h2 h3
    · exact h
    · exact h
    · exact h
    · intro a ha
      exact Front_mem ha
    · intro a ha
      exact h a ha
  | Pause =>
    simp only [step, Pause]
    split_ifs <;> exact h
  | Next =>
    intro a ha
    cases hc : p.currentSong with
    | none =>
      simp only [step, Next, hc] at ha
      cases ha
    | some c =>
      have h1 := (Next_some p c hc).2.2.2.2.2
      have h2 := (Next_some p c hc).2.1
      simp only [step] at ha ⊢
      rw [h2]
      rw [h1] at ha
      split_ifs at ha
      · exact Front_mem ha
      · exact Element.Next_mem ha
  | Prev =>
    intro a ha
    cases hc : p.currentSong with
    | none =>
      simp only [step, Prev, hc] at ha
      cases ha
    | some c =>
      have h1 := (Prev_some p c hc).2.2.2.2.2
      have h2 := (Prev_some p c hc).2.1
      simp only [step] at ha ⊢
      rw [h2]
      rw [h1] at ha
      split_ifs at ha
      · exact Back_mem ha
      · exact Element.Prev_mem ha

theorem run_invariant (p : playlist) (ops : List Op) (h : HeapOk p ∧ CursorLive p) :
    HeapOk (run p ops) ∧ CursorLive (run p ops) := by
  induction ops generalizing p with
  | nil => exact h
  | cons op ops ih =>
    exact ih (step p op).2 ⟨step_HeapOk p op h.1, step_CursorLive p op h.2⟩

/-- In every state the engine can reach, node addresses are pairwise distinct and
a set cursor points at a node of the list. -/
theorem Reachable.invariant {p : playlist} (h : Reachable p) : HeapOk p ∧ CursorLive p := by
  obtain ⟨ops, rfl⟩ := h
  refine run_invariant NewPlaylist ops ⟨⟨?_, ?_⟩, ?_⟩
  · simp [NewPlaylist, addrs]
  · intro a ha
    simp [NewPlaylist, addrs] at ha
  · intro a ha
    simp [NewPlaylist] at ha

/-- In every reachable state a set cursor is the address of the node at some
position of the list. -/
theorem Reachable.cursor_position {p : playlist} (h : Reachable p) (a : Nat)
    (hc : p.currentSong = some a) :
    ∃ i, ∃ hi : i < p.songs.length, p.songs[i].addr = a := by
  obtain ⟨e, he, hea⟩ := mem_addrs.1 (h.invariant.2 a hc)
  obtain ⟨i, hi, hie⟩ := List.getElem_of_mem he
  exact ⟨i, hi, by rw [hie, hea]⟩

/-! ## DeleteSong -/

/-- Claim C9, as the code has it.  In every state, reachable or not and whatever
the flags, in which the cursor points at a node `e` of the list and `e` is the
first node in list order whose song carries the title, `DeleteSong` with that
title returns `ErrorPlayingSong` and leaves the state, the track list and the
cursor in particular, as it was; the title is then the title of the cursor's
track. -/
theorem C9_DeleteSong_current (p : playlist) (title : String) (e : Element)
    (hc : current p = some e) (hf : findTitle p.songs title = some e) :
    e.Value.Title = title ∧
    DeleteSong p title = (some Error.ErrorPlayingSong, p) ∧
    (DeleteSong p title).2.songs = p.songs ∧
    (DeleteSong p title).2.currentSong = p.currentSong := by
  have ht : e.Value.Title = title := by
    have h1 := List.find?_some hf
    simpa using h1
  have hne : p.songs.length ≠ 0 := by
    intro h0
    have h1 : p.songs = [] := List.length_eq_zero.1 h0
    simp [findTitle, h1] at hf
  have hcur : some e.addr = p.currentSong := by
    unfold current at hc
    cases hcs : p.currentSong with
    | none => simp [hcs] at hc
    | some a =>
      simp only [hcs] at hc
      have h1 := List.find?_some hc
      have h2 : e.addr = a := by simpa using h1
      rw [h2]
  have hd : DeleteSong p title = (some Error.ErrorPlayingSong, p) := by
    simp [DeleteSong, hne, hf, hcur]
  exact ⟨ht, hd, by rw [hd], by rw [hd]⟩

/-- Instance of C9 on the state of `TestDeleteSong`: "Song 1" is playing and
`DeleteSong("Song 1")` is refused. -/
theorem C9_DeleteSong_current_witness :
    current oneSongPlaying = some ⟨1, ⟨"Song 1", 10000000000⟩⟩ ∧
    findTitle oneSongPlaying.songs "Song 1" = some ⟨1, ⟨"Song 1", 10000000000⟩⟩ ∧
    DeleteSong oneSongPlaying "Song 1" = (some Error.ErrorPlayingSong, oneSongPlaying) :=
  ⟨by decide, by decide,
    (C9_DeleteSong_current oneSongPlaying "Song 1" ⟨1, ⟨"Song 1", 10000000000⟩⟩
      (by decide) (by decide)).2.1⟩

/-- C9 as stated fails when two tracks share a title.  After adding "Song 1"
twice, `Play` and `Next`, the cursor is on the second "Song 1"; `DeleteSong` with
the title of the cursor's track returns nil and unlinks the first "Song 1". -/
theorem C9_counterexample :
    Reachable sameTitleTwice ∧
    current sameTitleTwice = some ⟨1, ⟨"Song 1", 10000000000⟩⟩ ∧
    (DeleteSong sameTitleTwice "Song 1").1 = none ∧
    (DeleteSong sameTitleTwice "Song 1").1 ≠ some Error.ErrorPlayingSong ∧
    sameTitleTwice.songs.length = 2 ∧
    (DeleteSong sameTitleTwice "Song 1").2.songs = [⟨1, ⟨"Song 1", 10000000000⟩⟩] :=
  ⟨⟨_, rfl⟩, by decide, by decide, by decide, by decide, by decide⟩

theorem findTitle_split {pre post : List Element} {e : Element} {title : String}
    (hpre : ∀ x ∈ pre, x.Value.Title ≠ title) (he : e.Value.Title = title) :
    findTitle (pre ++ e :: post) title = some e := by
  have h1 : pre.find? (fun x => x.Value.Title == title) = none := by
    rw [List.find?_eq_none]
    intro x hx
    simpa using hpre x hx
  simp [findTitle, List.find?_append, h1, List.find?_cons, he]

theorem Remove_split {pre post : List Element} {e : Element}
    (hnd : (addrs (pre ++ e :: post)).Nodup) :
    Remove (pre ++ e :: post) e.addr = pre ++ post := by
  have hpre : ∀ x ∈ pre, ¬ ((fun y : Element => y.addr == e.addr) x = true) := by
    intro x hx heq
    have h1 : x.addr = e.addr := by simpa using heq
    have h2 : (addrs pre ++ e.addr :: addrs post).Nodup := by simpa [addrs] using hnd
    have h3 := (List.nodup_append.1 h2).2.2
    exact h3 (mem_addrs.2 ⟨x, hx, rfl⟩) (by simp [h1])
  unfold Remove
  rw [List.eraseP_append_right _ hpre]
  simp

theorem find_addr_split {pre post : List Element} {e : Element} {a : Nat}
    (hne : e.addr ≠ a) :
    (pre ++ post).find? (fun x => x.addr == a) =
      (pre ++ e :: post).find? (fun x => x.addr == a) := by
  simp [List.find?_append, List.find?_cons, hne]

/-- Claim C10, `DeleteSong` success.  In every state (node addresses being pairwise
distinct) whose track list is `pre ++ e :: post`, where no track of `pre` carries
the title, `e` does, and the cursor does not point at `e`, `DeleteSong` returns
nil and the track list afterwards is `pre ++ post`: one track fewer, the others
in their old order.  The cursor, the node it points at and both flags are as
before. -/
theorem C10_DeleteSong_success (p : playlist) (title : String)
    (pre post : List Element) (e : Element)
    (hnd : (addrs p.songs).Nodup) (hs : p.songs = pre ++ e :: post)
    (hpre : ∀ x ∈ pre, x.Value.Title ≠ title) (he : e.Value.Title = title)
    (hcur : p.currentSong ≠ some e.addr) :
    (DeleteSong p title).1 = none ∧
    (DeleteSong p title).2.songs = pre ++ post ∧
    (DeleteSong p title).2.songs.length + 1 = p.songs.length ∧
    (DeleteSong p title).2.currentSong = p.currentSong ∧
    current (DeleteSong p title).2 = current p ∧
    (DeleteSong p title).2.isPlaying = p.isPlaying ∧
    (DeleteSong p title).2.isPaused = p.isPaused := by
  have hne : p.songs.length ≠ 0 := by simp [hs]
  have hf : findTitle p.songs title = some e := by
    rw [hs]; exact findTitle_split hpre he
  have hcur2 : ¬ (some e.addr = p.currentSong) := fun h => hcur h.symm
  have hrm : Remove p.songs e.addr = pre ++ post := by
    rw [hs] at hnd ⊢; exact Remove_split hnd
  have hd : DeleteSong p title = (none, { p with songs := pre ++ post }) := by
    simp [DeleteSong, hne, hf, hcur2, hrm]
  rw [hd]
  refine ⟨rfl, rfl, by simp [hs]; omega, rfl, ?_, rfl, rfl⟩
  unfold current
  cases hcs : p.currentSong with
  | none => simp
  | some a =>
    have hne2 : e.addr ≠ a := by
      intro heq
      exact hcur (by rw [hcs, heq])
    simp only [hs]
    exact find_addr_split hne2

/-- Instance of C10: with "Song 1" and "Song 2" playing and the cursor on
"Song 1", `DeleteSong("Song 2")` unlinks "Song 2". -/
theorem C10_DeleteSong_success_witness :
    (addrs twoSongsPlaying.songs).Nodup ∧
    twoSongsPlaying.songs =
      [⟨0, ⟨"Song 1", 150000000000⟩⟩] ++ ⟨1, ⟨"Song 2", 150000000000⟩⟩ :: [] ∧
    twoSongsPlaying.currentSong ≠ some 1 ∧
    ((DeleteSong twoSongsPlaying "Song 2").1 = none ∧
      (DeleteSong twoSongsPlaying "Song 2").2.songs = [⟨0, ⟨"Song 1", 150000000000⟩⟩] ++ [] ∧
      (DeleteSong twoSongsPlaying "Song 2").2.songs.length + 1 = twoSongsPlaying.songs.length ∧
      (DeleteSong twoSongsPlaying "Song 2").2.currentSong = twoSongsPlaying.currentSong ∧
      current (DeleteSong twoSongsPlaying "Song 2").2 = current twoSongsPlaying ∧
      (DeleteSong twoSongsPlaying "Song 2").2.isPlaying = twoSongsPlaying.isPlaying ∧
      (DeleteSong twoSongsPlaying "Song 2").2.isPaused = twoSongsPlaying.isPaused) :=
  ⟨by decide, by decide, by decide,
    C10_DeleteSong_success twoSongsPlaying "Song 2" [⟨0, ⟨"Song 1", 150000000000⟩⟩] []
      ⟨1, ⟨"Song 2", 150000000000⟩⟩ (by decide) (by decide) (by decide) (by decide)
      (by decide)⟩

/-- Claim C11, `DeleteSong` on absent tracks.  On an empty track list `DeleteSong`
returns `ErrorEmptyPlaylist`; on a non-empty list none of whose tracks carries the
title it returns `ErrorNotFoundSong`.  In both cases the state, with its track
list, cursor and flags, is left as it was. -/
theorem C11_DeleteSong_absent (p : playlist) (title : String) :
    (p.songs = [] → DeleteSong p title = (some Error.ErrorEmptyPlaylist, p)) ∧
    (p.songs ≠ [] → (∀ e ∈ p.songs, e.Value.Title ≠ title) →
      DeleteSong p title = (some Error.ErrorNotFoundSong, p)) := by
  refine ⟨fun h => by simp [DeleteSong, h], fun h hno => ?_⟩
  have hl : p.songs.length ≠ 0 := by simpa using h
  have hf : findTitle p.songs title = none := by
    unfold findTitle
    rw [List.find?_eq_none]
    intro x hx
    simpa using hno x hx
  simp [DeleteSong, hl, hf]

/-- Instance of C11: no track of the two-song playlist is titled "Song 3". -/
theorem C11_DeleteSong_absent_witness :
    twoSongsPlaying.songs ≠ [] ∧
    (∀ e ∈ twoSongsPlaying.songs, e.Value.Title ≠ "Song 3") ∧
    DeleteSong twoSongsPlaying "Song 3" = (some Error.ErrorNotFoundSong, twoSongsPlaying) :=
  ⟨by decide, by decide,
    (C11_DeleteSong_absent twoSongsPlaying "Song 3").2 (by decide) (by decide)⟩

/-! ## UpdateSong -/

theorem writeSong_length (l : List Element) (a : Nat) (t : String) (d : Int) :
    (writeSong l a t d).length = l.length := by
  simp [writeSong]

theorem writeSong_of_not_mem {l : List Element} {a : Nat} (t : String) (d : Int)
    (h : a ∉ addrs l) : writeSong l a t d = l := by
  unfold writeSong
  conv_rhs => rw [← List.map_id l]
  apply List.map_congr_left
  intro x hx
  have hne : x.addr ≠ a := fun heq => h (mem_addrs.2 ⟨x, hx, heq⟩)
  simp [hne]

theorem writeSong_split {pre post : List Element} {e : Element} (t : String) (d : Int)
    (hnd : (addrs (pre ++ e :: post)).Nodup) :
    writeSong (pre ++ e :: post) e.addr t d = pre ++ ⟨e.addr, ⟨t, d⟩⟩ :: post := by
  have h2 : (addrs pre ++ e.addr :: addrs post).Nodup := by simpa [addrs] using hnd
  have h3 := List.nodup_append.1 h2
  have hpre : e.addr ∉ addrs pre := fun hm => h3.2.2 hm (by simp)
  have hpost : e.addr ∉ addrs post := (List.nodup_cons.1 h3.2.1).1
  have h4 : writeSong (pre ++ e :: post) e.addr t d =
      writeSong pre e.addr t d ++ ⟨e.addr, ⟨t, d⟩⟩ :: writeSong post e.addr t d := by
    simp [writeSong]
  rw [h4, writeSong_of_not_mem t d hpre, writeSong_of_not_mem t d hpost]

theorem UpdateSong_frame (p : playlist) (o n : String) (d : Int) :
    (UpdateSong p o n d).2.songs.length = p.songs.length ∧
    addrs (UpdateSong p o n d).2.songs = addrs p.songs ∧
    (UpdateSong p o n d).2.currentSong = p.currentSong ∧
    (UpdateSong p o n d).2.isPlaying = p.isPlaying ∧
    (UpdateSong p o n d).2.isPaused = p.isPaused := by
  unfold UpdateSong
  split_ifs
  · exact ⟨rfl, rfl, rfl, rfl, rfl⟩
  · exact ⟨rfl, rfl, rfl, rfl, rfl⟩
  · split
    · exact ⟨writeSong_length _ _ _ _, addrs_writeSong _ _ _ _, rfl, rfl, rfl⟩
    · exact ⟨rfl, rfl, rfl, rfl, rfl⟩

/-- Claim C12, `UpdateSong`.  On an empty list it returns `ErrorEmptyPlaylist`; on a
non-empty list with an empty new title `ErrorEmptyTitleSong`; on a non-empty list
with a non-empty new title and no track titled `oldTitle`, `ErrorNotFoundSong`;
the state is untouched in these three cases.  Otherwise, the list being
`pre ++ e :: post` with `e` the first node titled `oldTitle` (node addresses
being pairwise distinct), it returns nil and the list becomes `pre`, then the
node of `e` holding the new title and duration, then `post`.  In every case the
length of the list, the order of its nodes, the cursor and both flags are as
before. -/
theorem C12_UpdateSong (p : playlist) (oldTitle newTitle : String) (newDuration : Int) :
    (p.songs = [] →
      UpdateSong p oldTitle newTitle newDuration = (some Error.ErrorEmptyPlaylist, p)) ∧
    (p.songs ≠ [] → newTitle = "" →
      UpdateSong p oldTitle newTitle newDuration = (some Error.ErrorEmptyTitleSong, p)) ∧
    (p.songs ≠ [] → newTitle ≠ "" → (∀ e ∈ p.songs, e.Value.Title ≠ oldTitle) →
      UpdateSong p oldTitle newTitle newDuration = (some Error.ErrorNotFoundSong, p)) ∧
    (∀ (pre post : List Element) (e : Element), (addrs p.songs).Nodup →
      p.songs = pre ++ e :: post → (∀ x ∈ pre, x.Value.Title ≠ oldTitle) →
      e.Value.Title = oldTitle → newTitle ≠ "" →
      (UpdateSong p oldTitle newTitle newDuration).1 = none ∧
      (UpdateSong p oldTitle newTitle newDuration).2.songs =
        pre ++ ⟨e.addr, ⟨newTitle, newDuration⟩⟩ :: post) ∧
    ((UpdateSong p oldTitle newTitle newDuration).2.songs.length = p.songs.length ∧
      addrs (UpdateSong p oldTitle newTitle newDuration).2.songs = addrs p.songs ∧
      (UpdateSong p oldTitle newTitle newDuration).2.currentSong = p.currentSong ∧
      (UpdateSong p oldTitle newTitle newDuration).2.isPlaying = p.isPlaying ∧
      (UpdateSong p oldTitle newTitle newDuration).2.isPaused = p.isPaused) := by
  refine ⟨fun h => by simp [UpdateSong, h], fun h hn => ?_, fun h hn hno => ?_,
    fun pre post e hnd hs hpre he hn => ?_, UpdateSong_frame p oldTitle newTitle newDuration⟩
  · have hl : p.songs.length ≠ 0 := by simpa using h
    simp [UpdateSong, hl, hn]
  · have hl : p.songs.length ≠ 0 := by simpa using h
    have hf : findTitle p.songs oldTitle = none := by
      unfold findTitle
      rw [List.find?_eq_none]
      intro x hx
      simpa using hno x hx
    simp [UpdateSong, hl, hn, hf]
  · have hl : p.songs.length ≠ 0 := by simp [hs]
    have hf : findTitle p.songs oldTitle = some e := by
      rw [hs]; exact findTitle_split hpre he
    have hw : writeSong p.songs e.addr newTitle newDuration =
        pre ++ ⟨e.addr, ⟨newTitle, newDuration⟩⟩ :: post := by
      rw [hs] at hnd ⊢; exact writeSong_split newTitle newDuration hnd
    simp [UpdateSong, hl, hn, hf, hw]

/-- Instance of C12: the first update of `TestUpdateSong`, "Song 1" renamed to
"Song 11". -/
theorem C12_UpdateSong_witness :
    (addrs (AddSong NewPlaylist "Song 1" 3000000000).2.songs).Nodup ∧
    (AddSong NewPlaylist "Song 1" 3000000000).2.songs =
      [] ++ ⟨0, ⟨"Song 1", 3000000000⟩⟩ :: [] ∧
    "Song 11" ≠ "" ∧
    ((UpdateSong (AddSong NewPlaylist "Song 1" 3000000000).2 "Song 1" "Song 11"
        3000000000).1 = none ∧
      (UpdateSong (AddSong NewPlaylist "Song 1" 3000000000).2 "Song 1" "Song 11"
        3000000000).2.songs = [] ++ ⟨0, ⟨"Song 11", 3000000000⟩⟩ :: []) :=
  ⟨by decide, by decide, by decide,
    (C12_UpdateSong (AddSong NewPlaylist "Song 1" 3000000000).2 "Song 1" "Song 11"
      3000000000).2.2.2.1 [] [] ⟨0, ⟨"Song 1", 3000000000⟩⟩ (by decide) (by decide)
      (by decide) (by decide) (by decide)⟩

/-! ## Next and Prev as moves around a circle -/

theorem cursor_idx {l : List Element} (i : Nat) (hi : i < l.length) :
    (addrs l)[i]? = some l[i].addr := by
  simp [addrs, hi]

theorem current_congr (p q : playlist) (hs : q.songs = p.songs)
    (hc : q.currentSong = p.currentSong) : current q = current p := by
  unfold current
  rw [hs, hc]

/-- The position of the cursor after `Next`, by position before. -/
theorem Next_cursor_idx (p : playlist) (hnd : (addrs p.songs).Nodup) (i : Nat)
    (hi : i < p.songs.length) (hc : p.currentSong = (addrs p.songs)[i]?) :
    (Next p).2.currentSong =
      (addrs p.songs)[if i + 1 < p.songs.length then i + 1 else 0]? := by
  rw [cursor_idx i hi] at hc
  rw [Next_cursor_at p hnd i hi hc]
  split_ifs <;> simp [addrs]

/-- The position of the cursor after `Prev`, by position before. -/
theorem Prev_cursor_idx (p : playlist) (hnd : (addrs p.songs).Nodup) (i : Nat)
    (hi : i < p.songs.length) (hc : p.currentSong = (addrs p.songs)[i]?) :
    (Prev p).2.currentSong =
      (addrs p.songs)[if i = 0 then p.songs.length - 1 else i - 1]? := by
  rw [cursor_idx i hi] at hc
  rw [Prev_cursor_at p hnd i hi hc]
  split_ifs <;> simp [addrs]

theorem Next_ok_of_idx (p : playlist) (i : Nat) (hi : i < p.songs.length)
    (hc : p.currentSong = (addrs p.songs)[i]?) :
    (Next p).1 = none ∧ (Next p).2.songs = p.songs ∧
    (Next p).2.isPlaying = p.isPlaying ∧ (Next p).2.isPaused = p.isPaused := by
  rw [cursor_idx i hi] at hc
  exact ⟨(Next_some p _ hc).1, (Next_some p _ hc).2.1, (Next_some p _ hc).2.2.1,
    (Next_some p _ hc).2.2.2.1⟩

theorem Prev_ok_of_idx (p : playlist) (i : Nat) (hi : i < p.songs.length)
    (hc : p.currentSong = (addrs p.songs)[i]?) :
    (Prev p).1 = none ∧ (Prev p).2.songs = p.songs ∧
    (Prev p).2.isPlaying = p.isPlaying ∧ (Prev p).2.isPaused = p.isPaused := by
  rw [cursor_idx i hi] at hc
  exact ⟨(Prev_some p _ hc).1, (Prev_some p _ hc).2.1, (Prev_some p _ hc).2.2.1,
    (Prev_some p _ hc).2.2.2.1⟩

/-- After `k` calls of `Next` from position `i` the cursor is at position
`(i + k) % N`, every call has returned nil, and the list is as before. -/
theorem nexts_idx (k : Nat) (p : playlist) (hnd : (addrs p.songs).Nodup) (i : Nat)
    (hi : i < p.songs.length) (hc : p.currentSong = (addrs p.songs)[i]?) :
    (nexts p k).1 = List.replicate k none ∧
    (nexts p k).2.songs = p.songs ∧
    (nexts p k).2.isPlaying = p.isPlaying ∧ (nexts p k).2.isPaused = p.isPaused ∧
    (nexts p k).2.currentSong = (addrs p.songs)[(i + k) % p.songs.length]? := by
  induction k generalizing p i with
  | zero =>
    simp [nexts, Nat.mod_eq_of_lt hi, hc]
  | succ k ih =>
    obtain ⟨h1, h2, h3, h4⟩ := Next_ok_of_idx p i hi hc
    have h5 := Next_cursor_idx p hnd i hi hc
    have hj : (if i + 1 < p.songs.length then i + 1 else 0) < p.songs.length := by
      split_ifs <;> omega
    have hjm : (if i + 1 < p.songs.length then i + 1 else 0) = (i + 1) % p.songs.length := by
      split_ifs with h
      · exact (Nat.mod_eq_of_lt h).symm
      · have h6 : i + 1 = p.songs.length := by omega
        rw [h6, Nat.mod_self]
    have hnd2 : (addrs (Next p).2.songs).Nodup := by rw [h2]; exact hnd
    have hj2 : (if i + 1 < p.songs.length then i + 1 else 0) < (Next p).2.songs.length := by
      rw [h2]; exact hj
    have hc2 : (Next p).2.currentSong =
        (addrs (Next p).2.songs)[if i + 1 < p.songs.length then i + 1 else 0]? := by
      rw [h2]; exact h5
    obtain ⟨r1, r2, r3, r4, r5⟩ := ih (Next p).2 hnd2 _ hj2 hc2
    simp only [nexts]
    refine ⟨?_, ?_, ?_, ?_, ?_⟩
    · rw [r1, h1]; rfl
    · rw [r2, h2]
    · rw [r3, h3]
    · rw [r4, h4]
    · rw [r5, h2, hjm, Nat.mod_add_mod]
      congr 2
      omega

/-- Claim C13, `Next` is circular with period `N`.  On a list of `N` tracks (node
addresses being pairwise distinct) with the cursor on the node at position `i`,
`N` consecutive calls of `Next` all return nil and leave the cursor on the node
it started on; the track list and both flags are as before. -/
theorem C13_Next_period (p : playlist) (i : Nat) (hi : i < p.songs.length)
    (hnd : (addrs p.songs).Nodup) (hc : p.currentSong = some p.songs[i].addr) :
    (nexts p p.songs.length).1.length = p.songs.length ∧
    (∀ r ∈ (nexts p p.songs.length).1, r = none) ∧
    (nexts p p.songs.length).2.currentSong = p.currentSong ∧
    current (nexts p p.songs.length).2 = current p ∧
    (nexts p p.songs.length).2.songs = p.songs ∧
    (nexts p p.songs.length).2.isPlaying = p.isPlaying ∧
    (nexts p p.songs.length).2.isPaused = p.isPaused := by
  have hc2 : p.currentSong = (addrs p.songs)[i]? := by rw [cursor_idx i hi]; exact hc
  obtain ⟨r1, r2, r3, r4, r5⟩ := nexts_idx p.songs.length p hnd i hi hc2
  have hback : (nexts p p.songs.length).2.currentSong = p.currentSong := by
    rw [r5, Nat.add_mod_right, Nat.mod_eq_of_lt hi, hc2]
  refine ⟨by rw [r1]; simp, ?_, hback, current_congr _ _ r2 hback, r2, r3, r4⟩
  intro r hr
  rw [r1] at hr
  exact (List.mem_replicate.1 hr).2

/-- Instance of C13 on the three tracks of `TestPlay`: three calls of `Next` from
"Song 1" return to "Song 1". -/
theorem C13_Next_period_witness :
    (addrs threeSongsPlaying.songs).Nodup ∧ threeSongsPlaying.currentSong = some 0 ∧
    ((nexts threeSongsPlaying 3).1 = [none, none, none] ∧
      (nexts threeSongsPlaying 3).2.currentSong = some 0) :=
  ⟨by decide, by decide, by decide,
    (C13_Next_period threeSongsPlaying 0 (by decide) (by decide) (by decide)).2.2.1⟩

/-- Claim C14, `Prev` undoes `Next`.  With the cursor on the node at position `i`
of the list (node addresses being pairwise distinct), last position included,
`Next` followed at once by `Prev` returns nil both times and leaves the cursor on
the node it started on; the track list and both flags are as before. -/
theorem C14_Prev_undoes_Next (p : playlist) (i : Nat) (hi : i < p.songs.length)
    (hnd : (addrs p.songs).Nodup) (hc : p.currentSong = some p.songs[i].addr) :
    (Next p).1 = none ∧ (Prev (Next p).2).1 = none ∧
    (Prev (Next p).2).2.currentSong = p.currentSong ∧
    current (Prev (Next p).2).2 = current p ∧
    (Prev (Next p).2).2.songs = p.songs ∧
    (Prev (Next p).2).2.isPlaying = p.isPlaying ∧
    (Prev (Next p).2).2.isPaused = p.isPaused := by
  have hc2 : p.currentSong = (addrs p.songs)[i]? := by rw [cursor_idx i hi]; exact hc
  obtain ⟨h1, h2, h3, h4⟩ := Next_ok_of_idx p i hi hc2
  have h5 := Next_cursor_idx p hnd i hi hc2
  have hnd2 : (addrs (Next p).2.songs).Nodup := by rw [h2]; exact hnd
  have hj2 : (if i + 1 < p.songs.length then i + 1 else 0) < (Next p).2.songs.length := by
    rw [h2]; split_ifs <;> omega
  have hc3 : (Next p).2.currentSong =
      (addrs (Next p).2.songs)[if i + 1 < p.songs.length then i + 1 else 0]? := by
    rw [h2]; exact h5
  obtain ⟨g1, g2, g3, g4⟩ := Prev_ok_of_idx (Next p).2 _ hj2 hc3
  have g5 := Prev_cursor_idx (Next p).2 hnd2 _ hj2 hc3
  have hback : (Prev (Next p).2).2.currentSong = p.currentSong := by
    rw [g5, h2, hc2]
    congr 1
    by_cases hlast : i + 1 < p.songs.length
    · simp [hlast]
    · have h6 : p.songs.length - 1 = i := by omega
      simp [hlast, h6]
  exact ⟨h1, g1, hback, current_congr _ _ (by rw [g2, h2]) hback, by rw [g2, h2],
    by rw [g3, h3], by rw [g4, h4]⟩

/-- Instance of C14 with the wrap: on the two-song playlist with the cursor on
"Song 2", the last track, `Next` wraps to "Song 1" and `Prev` returns to
"Song 2". -/
theorem C14_Prev_undoes_Next_witness :
    (addrs (Next twoSongsPlaying).2.songs).Nodup ∧
    (Next twoSongsPlaying).2.currentSong = some 1 ∧
    (Next (Next twoSongsPlaying).2).2.currentSong = some 0 ∧
    (Prev (Next (Next twoSongsPlaying).2).2).2.currentSong = some 1 :=
  ⟨by decide, by decide, by decide,
    (C14_Prev_undoes_Next (Next twoSongsPlaying).2 1 (by decide) (by decide)
      (by decide)).2.2.1⟩

/-! ## Invariants of the reachable states -/

theorem Front_ne_none {l : List Element} (h : l ≠ []) : Front l ≠ none := by
  cases l with
  | nil => exact absurd rfl h
  | cons x xs => simp [Front, addrs]

theorem Back_ne_none {l : List Element} (h : l ≠ []) : Back l ≠ none := by
  simp [Back, addrs, List.getLast?_eq_none_iff, h]

theorem ne_nil_of_mem_addrs {l : List Element} {a : Nat} (h : a ∈ addrs l) : l ≠ [] := by
  intro hl
  rw [hl] at h
  simp [addrs] at h

theorem step_PlayOk (p : playlist) (op : Op) (hl : CursorLive p) (h : PlayOk p) :
    PlayOk (step p op).2 := by
  obtain ⟨h1, h2⟩ := h
  cases op with
  | AddSong t d =>
    simp only [step, AddSong]
    split_ifs <;> exact ⟨h1, h2⟩
  | DeleteSong t =>
    simp only [step, DeleteSong]
    split_ifs
    · exact ⟨h1, h2⟩
    · split
      · split_ifs <;> exact ⟨h1, h2⟩
      · exact ⟨h1, h2⟩
  | UpdateSong o n d =>
    simp only [step, UpdateSong]
    split_ifs
    · exact ⟨h1, h2⟩
    · exact ⟨h1, h2⟩
    · split <;> exact ⟨h1, h2⟩
  | Play =>
    simp only [step, Play]
    split_ifs with hlen hp hq
    · exact ⟨h1, h2⟩
    · exact ⟨h1, h2⟩
    · exact ⟨fun hf => by simp at hf, h2⟩
    · have hne : p.songs ≠ [] := fun h0 => hlen (by simp [h0])
      exact ⟨fun hf => by simp at hf, fun _ => Front_ne_none hne, fun _ => rfl⟩
    · rename_i hc
      exact ⟨fun hf => by simp at hf, fun _ => hc, fun _ => rfl⟩
  | Pause =>
    simp only [step, Pause]
    split_ifs with hp hq
    · exact ⟨h1, h2⟩
    · exact ⟨h1, h2⟩
    · have hp2 : p.isPlaying = true := by simpa using hp
      exact ⟨fun _ => hp2, h2⟩
  | Next =>
    cases hc : p.currentSong with
    | none =>
      have hN : (step p Op.Next).2 = p := by simp [step, Next, hc]
      rw [hN]; exact ⟨h1, h2⟩
    | some c =>
      obtain ⟨_, g2, g3, g4, _, g6⟩ := Next_some p c hc
      have hne : p.songs ≠ [] := ne_nil_of_mem_addrs (hl c hc)
      have hplay : p.isPlaying = true := h2.2 (by rw [hc]; simp)
      have hcur : (Next p).2.currentSong ≠ none := by
        rw [g6]
        split_ifs with hn
        · exact Front_ne_none hne
        · exact hn
      have hplay2 : (Next p).2.isPlaying = true := by rw [g3]; exact hplay
      show PlayOk (Next p).2
      exact ⟨fun _ => hplay2, fun _ => hcur, fun _ => hplay2⟩
  | Prev =>
    cases hc : p.currentSong with
    | none =>
      have hN : (step p Op.Prev).2 = p := by simp [step, Prev, hc]
      rw [hN]; exact ⟨h1, h2⟩
    | some c =>
      obtain ⟨_, g2, g3, g4, _, g6⟩ := Prev_some p c hc
      have hne : p.songs ≠ [] := ne_nil_of_mem_addrs (hl c hc)
      have hplay : p.isPlaying = true := h2.2 (by rw [hc]; simp)
      have hcur : (Prev p).2.currentSong ≠ none := by
        rw [g6]
        split_ifs with hn
        · exact Back_ne_none hne
        · exact hn
      have hplay2 : (Prev p).2.isPlaying = true := by rw [g3]; exact hplay
      show PlayOk (Prev p).2
      exact ⟨fun _ => hplay2, fun _ => hcur, fun _ => hplay2⟩

theorem run_PlayOk (p : playlist) (ops : List Op) (hl : CursorLive p) (h : PlayOk p) :
    PlayOk (run p ops) := by
  induction ops generalizing p with
  | nil => exact h
  | cons op ops ih =>
    exact ih (step p op).2 (step_CursorLive p op hl) (step_PlayOk p op hl h)

/-- In every reachable state the engine is paused only while playing, and the
cursor is set exactly while playing. -/
theorem Reachable.playOk {p : playlist} (h : Reachable p) : PlayOk p := by
  obtain ⟨ops, rfl⟩ := h
  refine run_PlayOk NewPlaylist ops ?_ ?_
  · intro a ha
    simp [NewPlaylist] at ha
  · simp [PlayOk, NewPlaylist]

/-- The cursor's node stays linked into the list across any one call. -/
theorem step_keeps_cursor_node (p : playlist) (op : Op) (a : Nat)
    (hc : p.currentSong = some a) (ha : a ∈ addrs p.songs) :
    a ∈ addrs (step p op).2.songs := by
  cases op with
  | AddSong t d =>
    simp only [step, AddSong]
    split_ifs
    · exact ha
    · exact ha
    · simp only [PushBack, addrs, List.map_append, List.mem_append]
      exact Or.inl ha
  | DeleteSong t =>
    simp only [step, DeleteSong]
    split_ifs
    · exact ha
    · split
      · rename_i e _
        split_ifs with hcur
        · exact ha
        · refine mem_addrs_Remove ha ?_
          intro heq
          exact hcur (by rw [hc, heq])
      · exact ha
  | UpdateSong o n d =>
    simp only [step, UpdateSong]
    split_ifs
    · exact ha
    · exact ha
    · split
      · show a ∈ addrs (writeSong _ _ _ _)
        rw [addrs_writeSong]; exact ha
      · exact ha
  | Play =>
    simp only [step, Play]
    split_ifs <;> exact ha
  | Pause =>
    simp only [step, Pause]
    split_ifs <;> exact ha
  | Next =>
    simp only [step]
    rw [(Next_some p a hc).2.1]; exact ha
  | Prev =>
    simp only [step]
    rw [(Prev_some p a hc).2.1]; exact ha

/-- Claim C15, cursor validity.  In every reachable state a set cursor points at a
node that is linked into the track list, and whatever call comes next, that node
is still linked into the list after it: no call unlinks the cursor's node. -/
theorem C15_cursor_valid (p : playlist) (h : Reachable p) :
    (∀ a, p.currentSong = some a →
      ∃ e, current p = some e ∧ e ∈ p.songs ∧ e.addr = a) ∧
    (∀ (op : Op) (a : Nat), p.currentSong = some a → a ∈ addrs (step p op).2.songs) := by
  refine ⟨fun a hc => ?_, fun op a hc => step_keeps_cursor_node p op a hc (h.invariant.2 a hc)⟩
  obtain ⟨x, hx, hxa⟩ := mem_addrs.1 (h.invariant.2 a hc)
  cases hf : p.songs.find? (fun e => e.addr == a) with
  | none =>
    rw [List.find?_eq_none] at hf
    exact absurd (by simp [hxa]) (hf x hx)
  | some e =>
    refine ⟨e, by simp [current, hc, hf], List.mem_of_find?_eq_some hf, ?_⟩
    simpa using List.find?_some hf

/-- Instance of C15: in the two-song playlist after `Play` the cursor points at
a node of the list. -/
theorem C15_cursor_valid_witness :
    Reachable twoSongsPlaying ∧ twoSongsPlaying.currentSong = some 0 ∧
    ∃ e, current twoSongsPlaying = some e ∧ e ∈ twoSongsPlaying.songs ∧ e.addr = 0 :=
  ⟨⟨_, rfl⟩, by decide, (C15_cursor_valid twoSongsPlaying ⟨_, rfl⟩).1 0 (by decide)⟩

/-- Claim C16, as the code has it.  In every reachable state the cursor is empty
exactly while the engine is not playing, so it is never empty while playing or
paused, and it is empty whenever the track list is empty. -/
theorem C16_cursor_empty (p : playlist) (h : Reachable p) :
    (p.currentSong = none ↔ p.isPlaying = false) ∧
    (p.isPlaying = true → p.currentSong ≠ none) ∧
    (p.songs = [] → p.currentSong = none) := by
  obtain ⟨_, h2⟩ := h.playOk
  refine ⟨⟨fun hc => ?_, fun hp => ?_⟩, h2.1, fun hs => ?_⟩
  · cases hp : p.isPlaying with
    | false => rfl
    | true => exact absurd hc (h2.1 hp)
  · by_contra hc
    rw [h2.2 hc] at hp
    cases hp
  · cases hc : p.currentSong with
    | none => rfl
    | some a => exact absurd hs (ne_nil_of_mem_addrs (h.invariant.2 a hc))

/-- Instance of C16: the two-song playlist after `Play` has its cursor set. -/
theorem C16_cursor_empty_witness :
    Reachable twoSongsPlaying ∧ twoSongsPlaying.isPlaying = true ∧
    twoSongsPlaying.currentSong ≠ none :=
  ⟨⟨_, rfl⟩, by decide, (C16_cursor_empty twoSongsPlaying ⟨_, rfl⟩).2.1 (by decide)⟩

/-- C16 as stated fails before the first `Play`: after two `AddSong` calls on a
new playlist the track list holds two tracks and the cursor is empty. -/
theorem C16_counterexample :
    Reachable twoSongsStopped ∧ twoSongsStopped.songs.length = 2 ∧
    twoSongsStopped.songs ≠ [] ∧ twoSongsStopped.currentSong = none :=
  ⟨⟨_, rfl⟩, by decide, by decide, by decide⟩

/-- Claim C17, the playback state.  In every reachable state the flags
(isPlaying, isPaused) are (false, false), (true, false) or (true, true), that is
Stopped, Playing or Paused; (false, true) is never reached. -/
theorem C17_playback_state (p : playlist) (h : Reachable p) :
    ((p.isPlaying, p.isPaused) = (false, false) ∨ (p.isPlaying, p.isPaused) = (true, false) ∨
      (p.isPlaying, p.isPaused) = (true, true)) ∧
    (p.isPlaying, p.isPaused) ≠ (false, true) := by
  obtain ⟨h1, _⟩ := h.playOk
  cases hp : p.isPlaying <;> cases hq : p.isPaused <;> simp_all

/-- Instance of C17: the paused two-song playlist has flags (true, true). -/
theorem C17_playback_state_witness :
    Reachable twoSongsPaused ∧
    (twoSongsPaused.isPlaying, twoSongsPaused.isPaused) = (true, true) ∧
    (twoSongsPaused.isPlaying, twoSongsPaused.isPaused) ≠ (false, true) :=
  ⟨⟨_, rfl⟩, by decide, (C17_playback_state twoSongsPaused ⟨_, rfl⟩).2⟩

/-- Claim C18, atomicity on error.  For every state and every call of one of the
seven methods with any arguments, a call that returns an error leaves the whole
state as it was: track list with its contents and order, cursor, flags. -/
theorem C18_error_atomic (p : playlist) (op : Op) (h : (step p op).1 ≠ none) :
    (step p op).2 = p ∧
    (step p op).2.songs = p.songs ∧ (step p op).2.currentSong = p.currentSong ∧
    (step p op).2.isPlaying = p.isPlaying ∧ (step p op).2.isPaused = p.isPaused := by
  have hp : (step p op).2 = p := by
    cases op with
    | AddSong t d =>
      simp only [step, AddSong] at h ⊢
      split_ifs at h ⊢ <;> first | rfl | exact absurd rfl h
    | DeleteSong t =>
      simp only [step, DeleteSong] at h ⊢
      split_ifs at h ⊢
      · rfl
      · split at h
        · split_ifs at h ⊢ <;> first | rfl | exact absurd rfl h
        · rfl
    | UpdateSong o n d =>
      simp only [step, UpdateSong] at h ⊢
      split_ifs at h ⊢
      · rfl
      · rfl
      · split at h
        · exact absurd rfl h
        · rfl
    | Play =>
      simp only [step, Play] at h ⊢
      split_ifs at h ⊢ <;> first | rfl | exact absurd rfl h
    | Pause =>
      simp only [step, Pause] at h ⊢
      split_ifs at h ⊢ <;> first | rfl | exact absurd rfl h
    | Next =>
      simp only [step, Next] at h ⊢
      split at h
      · rfl
      · exact absurd rfl h
    | Prev =>
      simp only [step, Prev] at h ⊢
      split at h
      · rfl
      · exact absurd rfl h
  exact ⟨hp, by rw [hp], by rw [hp], by rw [hp], by rw [hp]⟩

/-- Instance of C18: `DeleteSong("Song 1")` on the playing two-song playlist
fails, the cursor being on "Song 1", and changes nothing. -/
theorem C18_error_atomic_witness :
    (step twoSongsPlaying (Op.DeleteSong "Song 1")).1 = some Error.ErrorPlayingSong ∧
    (step twoSongsPlaying (Op.DeleteSong "Song 1")).2 = twoSongsPlaying :=
  ⟨by decide, (C18_error_atomic twoSongsPlaying (Op.DeleteSong "Song 1") (by decide)).1⟩

/-- Claim C19 at its failing input.  `UpdateSong` accepts a duration of zero, which
`AddSong` refuses: after `AddSong("Song 1", 3 s)` and
`UpdateSong("Song 1", "Song 1", 0)`, both returning nil, the track list holds a
track of duration zero. -/
theorem C19_zero_duration_reached :
    Reachable zeroDurationUpdate ∧
    (UpdateSong (AddSong NewPlaylist "Song 1" 3000000000).2 "Song 1" "Song 1" 0).1 = none ∧
    tracks zeroDurationUpdate.songs = [⟨"Song 1", 0⟩] ∧
    ¬ (∀ e ∈ zeroDurationUpdate.songs, 0 < e.Value.Duration) ∧
    (AddSong NewPlaylist "Song 1" 0).1 = some Error.ErrorNotValidDurationSong :=
  ⟨⟨_, rfl⟩, by decide, by decide, by decide, by decide⟩

/-! ## The scheduling loop -/

/-- Claim C20 at its failing input, the run of `TestPlay`.  When the first second
has elapsed and the goroutine's own timer case has run `Next`, the cursor is on
"Song 2" and two goroutines, the one that called `Next` and the one `Next`
started, wait in their `select` on the installed stop channel with the same
deadline.  When the second second has elapsed both take their timer case, and
the cursor is on "Song 1", two positions on, not on "Song 3". -/
theorem C20_two_loops_double_advance :
    (fireAll Machine.init testPlayFirstSecond).map
        (fun s => (s.now, (current s.engine).map (fun e => e.Value.Title), waitingNow s)) =
      some (1000000000, some "Song 2",
        [Loop.waiting 1 2000000000, Loop.waiting 1 2000000000]) ∧
    (fireAll Machine.init testPlaySecondSecond).map
        (fun s => (s.now, (current s.engine).map (fun e => e.Value.Title))) =
      some (2000000000, some "Song 1") := by
  decide

/-! ## The controller -/

/-- A call of the engine's `DeleteSong` that returns an error leaves the engine
as it was. -/
theorem DeleteSong_error_state (p : playlist) (title : String) (e : Error)
    (h : (DeleteSong p title).1 = some e) : (DeleteSong p title).2 = p := by
  unfold DeleteSong at h ⊢
  split_ifs at h ⊢
  · rfl
  · split at h
    · split_ifs at h ⊢
      rfl
    · rfl

/-- Claim C21, the order of the controller's delete.  Whenever `Get` on the
repository returns a song and no error, the controller's `DeleteSong` calls
`Get`, then the engine's `DeleteSong` with that song's title, and only then, and
only if the engine returned nil, the repository's `Delete`.  If the engine
returns an error the controller returns that same error, no `Delete` is among
the calls made, the repository is in the state `Get` left it in, so unchanged
when `Get` changes nothing, and the engine is as it was. -/
theorem C21_controller_delete_order {σ : Type} (repo : SongDB σ) (c : playlistController σ)
    (title : String) (song : DataSong)
    (hget : (repo.Get c.db title).1 = (some song, none)) :
    (∀ e, (DeleteSong c.playlist song.Title).1 = some e →
      (c.DeleteSong repo title).err = some (ControllerError.playlist e) ∧
      (c.DeleteSong repo title).calls =
        [Call.dbGet title, Call.playlistDeleteSong song.Title] ∧
      (∀ t, Call.dbDelete t ∉ (c.DeleteSong repo title).calls) ∧
      (c.DeleteSong repo title).state.db = (repo.Get c.db title).2 ∧
      ((repo.Get c.db title).2 = c.db → (c.DeleteSong repo title).state.db = c.db) ∧
      (c.DeleteSong repo title).state.playlist = c.playlist) ∧
    ((DeleteSong c.playlist song.Title).1 = none →
      (c.DeleteSong repo title).calls =
        [Call.dbGet title, Call.playlistDeleteSong song.Title, Call.dbDelete title] ∧
      (c.DeleteSong repo title).state.playlist = (DeleteSong c.playlist song.Title).2 ∧
      (c.DeleteSong repo title).state.db = (repo.Delete (repo.Get c.db title).2 title).2) := by
  have h1 : (repo.Get c.db title).1.1 = some song := by rw [hget]
  have h2 : (repo.Get c.db title).1.2 = none := by rw [hget]
  refine ⟨fun e he => ?_, fun he => ?_⟩
  · have hst := DeleteSong_error_state c.playlist song.Title e he
    have hout : c.DeleteSong repo title =
        { err := some (ControllerError.playlist e),
          state := { db := (repo.Get c.db title).2, playlist := c.playlist },
          calls := [Call.dbGet title, Call.playlistDeleteSong song.Title] } := by
      simp only [playlistController.DeleteSong, h1, h2, he, hst]
    rw [hout]
    refine ⟨rfl, rfl, ?_, rfl, fun hg => hg, rfl⟩
    intro t ht
    simp at ht
  · cases hrem : (repo.Delete (repo.Get c.db title).2 title).1 with
    | none => simp [playlistController.DeleteSong, h1, h2, he, hrem]
    | some err => simp [playlistController.DeleteSong, h1, h2, he, hrem]

/-- Instance of C21, lines 60-71 of `client/client.go`: after `Play` the delete of
"Test Song 1", the cursor's track, returns the engine's `ErrorPlayingSong`, the
repository's `Delete` is not called, and both rows are still in the table. -/
theorem C21_controller_delete_order_witness :
    (tableDB.Get clientController.db "Test Song 1").1 =
      (some ⟨1, "Test Song 1", 180000000000⟩, none) ∧
    (DeleteSong clientController.playlist "Test Song 1").1 = some Error.ErrorPlayingSong ∧
    ((clientController.DeleteSong tableDB "Test Song 1").err =
        some (ControllerError.playlist Error.ErrorPlayingSong) ∧
      (clientController.DeleteSong tableDB "Test Song 1").calls =
        [Call.dbGet "Test Song 1", Call.playlistDeleteSong "Test Song 1"] ∧
      (∀ t, Call.dbDelete t ∉ (clientController.DeleteSong tableDB "Test Song 1").calls) ∧
      (clientController.DeleteSong tableDB "Test Song 1").state.db =
        [⟨1, "Test Song 1", 180⟩, ⟨2, "Test Song 2", 180⟩] ∧
      ((tableDB.Get clientController.db "Test Song 1").2 = clientController.db →
        (clientController.DeleteSong tableDB "Test Song 1").state.db = clientController.db) ∧
      (clientController.DeleteSong tableDB "Test Song 1").state.playlist =
        clientController.playlist) :=
  ⟨by decide, by decide,
    (C21_controller_delete_order tableDB clientController "Test Song 1"
      ⟨1, "Test Song 1", 180000000000⟩ (by decide)).1 Error.ErrorPlayingSong (by decide)⟩

end MusicPlayer
